import Mathlib

/- Verification development for the dataloader repository: a shallow
   embedding of the text-processing and knowledge-graph construction
   pipeline of `core/unified_dataloader.py` and `core/graph_builders.py`,
   together with theorems settling the specification's claims. -/

/- ===== Python string primitives (ASCII fragment used by the pipeline) ===== -/

/-- Whitespace characters matched by the Python regex class backslash-s and
removed by `str.strip`, restricted to ASCII. -/
def isPySpace (c : Char) : Bool :=
  c = ' ' || c = '\t' || c = '\n' || c = '\x0d' || c = '\x0c' || c = '\x0b'

/-- Python `str.strip()`: drop whitespace from both ends of a character list. -/
def pyStrip (l : List Char) : List Char :=
  ((l.dropWhile isPySpace).reverse.dropWhile isPySpace).reverse

/-- Python `str.strip()` on strings. -/
def pyStripStr (s : String) : String :=
  String.mk (pyStrip s.data)

/-- Boolean substring test, Python's `needle in hay`. -/
def hasSub (needle : List Char) : List Char → Bool
  | [] => needle.isEmpty
  | c :: t => needle.isPrefixOf (c :: t) || hasSub needle t

/-- Python `needle in hay` on strings. -/
def strHasSub (needle hay : String) : Bool :=
  hasSub needle.data hay.data

/-- Python `s.startswith(pre)`. -/
def strStartsWith (s pre : String) : Bool :=
  pre.data.isPrefixOf s.data

/-- Python `s.endswith(post)`. -/
def strEndsWith (s post : String) : Bool :=
  post.data.reverse.isPrefixOf s.data.reverse

/-- Python `s.lower()` on the ASCII fragment. -/
def pyLower (s : String) : String :=
  String.mk (s.data.map Char.toLower)

/-- Splitter state for Python `s.split('\n')`: the accumulator holds the
current line reversed. -/
def splitNlGo (cur : List Char) : List Char → List (List Char)
  | [] => [cur.reverse]
  | c :: rest =>
    if c = '\n' then cur.reverse :: splitNlGo [] rest
    else splitNlGo (c :: cur) rest

/-- Python `s.split('\n')`; the empty string yields one empty line. -/
def pyLines (s : String) : List String :=
  (splitNlGo [] s.data).map String.mk

/-- Python `'\n'.join(lines)`. -/
def joinWithNewline : List String → String
  | [] => ""
  | [s] => s
  | s :: rest => s ++ "\n" ++ joinWithNewline rest

/-- One step of Python `s.replace(pat, rep)` (all occurrences, left to
right, non-overlapping); the fuel argument bounds recursion depth and the
input length always suffices for a non-empty pattern. -/
def replaceAllGo (pat rep : List Char) : Nat → List Char → List Char
  | 0, l => l
  | _ + 1, [] => []
  | fuel + 1, c :: rest =>
    if pat.isPrefixOf (c :: rest) then
      rep ++ replaceAllGo pat rep fuel ((c :: rest).drop pat.length)
    else c :: replaceAllGo pat rep fuel rest

/-- Python `s.replace(pat, rep)` on character lists. -/
def replaceAll (pat rep l : List Char) : List Char :=
  replaceAllGo pat rep l.length l

/-- Insertion-order dictionary update, Python `d[k] = v`: overwrite the
value when the key is present, append a new entry otherwise. -/
def dictInsert {α : Type} (m : List (String × α)) (k : String) (v : α) :
    List (String × α) :=
  if m.any (fun kv => kv.1 = k) then
    m.map (fun kv => if kv.1 = k then (k, v) else kv)
  else m ++ [(k, v)]

/-- Dictionary lookup, Python `d.get(k)`. -/
def dictLookup {α : Type} : List (String × α) → String → Option α
  | [], _ => none
  | kv :: rest, k => if kv.1 = k then some kv.2 else dictLookup rest k

/-- Insert an element only when absent, keeping insertion order.  This is
the key-level effect of a Cypher `MERGE` on an already-keyed pattern. -/
def insertKey {α : Type} [DecidableEq α] (ks : List α) (k : α) : List α :=
  if k ∈ ks then ks else ks ++ [k]

/- ===== TextProcessor._clean_text (unified_dataloader.py lines 213-229) ===== -/

/-- Characters allowed between the bracket and the final `m` of an ANSI
escape: the regex class of digits and semicolons. -/
def isAnsiParam (c : Char) : Bool := c.isDigit || c = ';'

/-- One step of scanning for the ANSI-escape regex (ESC, bracket, a run of
digits or semicolons, then `m`).  The fuel argument only bounds recursion
depth; fuel equal to the list length always suffices because every
recursive call consumes at least one character. -/
def removeAnsiGo : Nat → List Char → List Char
  | 0, l => l
  | _ + 1, [] => []
  | fuel + 1, c :: rest =>
    if c = '\x1b' then
      match rest with
      | '[' :: body =>
        match body.dropWhile isAnsiParam with
        | 'm' :: r2 => removeAnsiGo fuel r2
        | _ => c :: removeAnsiGo fuel rest
      | _ => c :: removeAnsiGo fuel rest
    else c :: removeAnsiGo fuel rest

/-- Python `re.sub(r'\x1b\[[0-9;]*m', '', s)`: delete every ANSI
colour-code escape sequence. -/
def removeAnsi (l : List Char) : List Char := removeAnsiGo l.length l

/-- One pass of whitespace normalization; the flag records whether the
previous character was part of a whitespace run already replaced. -/
def normWsGo : Bool → List Char → List Char
  | _, [] => []
  | inRun, c :: rest =>
    if isPySpace c then
      (if inRun then normWsGo true rest else ' ' :: normWsGo true rest)
    else c :: normWsGo false rest

/-- Python `re.sub(r'\s+', ' ', s)`: collapse each whitespace run to a
single space. -/
def normalizeWs (l : List Char) : List Char := normWsGo false l

/-- Python `re.sub(r'^.*\[DEBUG\].*$', '', s, flags=re.MULTILINE)`: a line
containing the debug marker is replaced by an empty line. -/
def removeDebugLines (s : String) : String :=
  joinWithNewline
    ((pyLines s).map
      (fun line => if strHasSub "[DEBUG]" line then "" else line))

/-- The three toggles of the `cleaning` configuration section. -/
structure CleaningConfig where
  remove_ansi_codes : Bool
  normalize_whitespace : Bool
  remove_debug_logs : Bool
deriving DecidableEq

/-- Embedding of `TextProcessor._clean_text`: optionally strip ANSI codes,
optionally collapse whitespace, optionally blank debug lines, then always
`strip()` the result. -/
def cleanText (cfg : CleaningConfig) (text : String) : String :=
  let s1 := if cfg.remove_ansi_codes then String.mk (removeAnsi text.data) else text
  let s2 := if cfg.normalize_whitespace then String.mk (normalizeWs s1.data) else s1
  let s3 := if cfg.remove_debug_logs then removeDebugLines s2 else s2
  pyStripStr s3

/- ===== TextProcessor._detect_file_type (lines 231-248) ===== -/

/-- Embedding of `TextProcessor._detect_file_type`: an ordered first-match
sequence of path checks over the lowercased path, defaulting to
`unknown`; the content argument is accepted but never inspected. -/
def detectFileType (file_path : String) (_content : String) : String :=
  let p := pyLower file_path
  if strEndsWith p ".log" then "log_file"
  else if strEndsWith p ".conf" then "config_file"
  else if strEndsWith p ".service" then "systemd_service"
  else if strHasSub "packages.txt" p then "package_list"
  else if strHasSub "redhat-release" p then "release_info"
  else if strEndsWith p ".repo" then "repository_config"
  else "unknown"

/- ===== TextProcessor._parse_config_file (lines 291-307) ===== -/

/-- Python `line.split('=', 1)`: the part before the first `=` and the part
after it.  Only meaningful when the line contains an `=`. -/
def splitFirstEq (l : List Char) : List Char × List Char :=
  (l.takeWhile (fun c => c ≠ '='), (l.dropWhile (fun c => c ≠ '=')).tail)

/-- Result record of `_parse_config_file`. -/
structure ConfigParseResult where
  config_pairs : List (String × String)
  total_settings : Nat
deriving DecidableEq

/-- Per-line step of `_parse_config_file`: strip the line; skip it when it
is blank, starts with `#`, or has no `=`; otherwise split at the first `=`
and store the stripped key and value. -/
def configLineStep (acc : List (String × String)) (rawLine : String) :
    List (String × String) :=
  let line := pyStripStr rawLine
  if line ≠ "" && !(strStartsWith line "#") && strHasSub "=" line then
    dictInsert acc
      (pyStripStr (String.mk (splitFirstEq line.data).1))
      (pyStripStr (String.mk (splitFirstEq line.data).2))
  else acc

/-- The line loop of `_parse_config_file`. -/
def parseConfigLines (lines : List String) : List (String × String) :=
  lines.foldl configLineStep []

/-- Embedding of `TextProcessor._parse_config_file`. -/
def parse_config_file (content : String) : ConfigParseResult :=
  let pairs := parseConfigLines (pyLines content)
  ⟨pairs, pairs.length⟩

/- ===== TextProcessor._parse_log_file (lines 263-289) ===== -/

/-- A structured event produced from one log line: the matching pattern
name, the raw line, and the fields bound by the grok match. -/
structure LogEvent where
  pattern_type : String
  raw_line : String
  fields : List (String × String)
deriving DecidableEq

/-- A named grok pattern is abstracted as a matcher from a line to the
optional field bindings; a matcher that raises is indistinguishable from
one that does not match, because `_parse_log_file` swallows per-pattern
exceptions and moves on. -/
def GrokSet : Type := List (String × (String → Option (List (String × String))))

/-- First grok pattern matching the line, in registration order. -/
def grokFirstMatch : GrokSet → String → Option (String × List (String × String))
  | [], _ => none
  | (name, pat) :: rest, line =>
    match pat line with
    | some fields => some (name, fields)
    | none => grokFirstMatch rest line

/- ===== TextProcessor._parse_release_info (lines 323-332) ===== -/

/-- Attempt of the regex `release (\d+\.\d+)` at the head of the list:
the literal, a maximal digit run, a dot, a second digit run. -/
def matchReleaseAt (l : List Char) : Option (List Char) :=
  if ("release ".data).isPrefixOf l then
    let after := l.drop 8
    let d1 := after.takeWhile Char.isDigit
    match after.dropWhile Char.isDigit with
    | '.' :: r2 =>
      let d2 := r2.takeWhile Char.isDigit
      if d1 ≠ [] && d2 ≠ [] then some (d1 ++ '.' :: d2) else none
    | _ => none
  else none

/-- Python `re.search(r'release (\d+\.\d+)', s)`: leftmost match wins. -/
def searchRelease : List Char → Option (List Char)
  | [] => none
  | c :: rest =>
    match matchReleaseAt (c :: rest) with
    | some g => some g
    | none => searchRelease rest

/-- Attempt of the regex `\(([^)]+)\)` at the head of the list: an opening
parenthesis, a non-empty run without closing parentheses, then one. -/
def matchCodenameAt (l : List Char) : Option (List Char) :=
  match l with
  | '(' :: rest =>
    let run := rest.takeWhile (fun c => c ≠ ')')
    if run ≠ [] && (rest.dropWhile (fun c => c ≠ ')')).head? = some ')' then
      some run
    else none
  | _ => none

/-- Python `re.search(r'\(([^)]+)\)', s)`: leftmost match wins. -/
def searchCodename : List Char → Option (List Char)
  | [] => none
  | c :: rest =>
    match matchCodenameAt (c :: rest) with
    | some g => some g
    | none => searchCodename rest

/- ===== TextProcessor._parse_by_type (lines 250-261) ===== -/

/-- The structured data attached to a processed file, one constructor per
branch of `_parse_by_type`. -/
inductive ParsedData where
  | logData (parsed_events : List LogEvent) (total_events total_lines : Nat)
  | configData (res : ConfigParseResult)
  | packageData (packages : List String) (package_count : Nat)
  | releaseData (full_release version codename : String)
  | rawContent (content : String)
deriving DecidableEq

/-- Embedding of `TextProcessor._parse_log_file`: match each non-blank
line against the grok patterns, first match wins, unmatched lines are
dropped from the structured result. -/
def parse_log_file (grok : GrokSet) (content : String) : ParsedData :=
  let events := (pyLines content).foldl
    (fun evs line =>
      if pyStrip line.data = [] then evs
      else
        match grokFirstMatch grok line with
        | some nf => evs ++ [⟨nf.1, line, nf.2⟩]
        | none => evs) []
  .logData events events.length (pyLines content).length

/-- Embedding of `TextProcessor._parse_package_list`: one entry per
non-blank stripped line. -/
def parse_package_list (content : String) : ParsedData :=
  let packages := (pyLines content).foldl
    (fun ps line =>
      if pyStripStr line ≠ "" then ps ++ [pyStripStr line] else ps) []
  .packageData packages packages.length

/-- Embedding of `TextProcessor._parse_release_info`: extract a version
number and an optional parenthesized codename by regex search. -/
def parse_release_info (content : String) : ParsedData :=
  .releaseData (pyStripStr content)
    (match searchRelease content.data with
     | some g => String.mk g
     | none => "unknown")
    (match searchCodename content.data with
     | some g => String.mk g
     | none => "unknown")

/-- Embedding of `TextProcessor._parse_by_type`. -/
def parse_by_type (grok : GrokSet) (file_type content : String) : ParsedData :=
  if file_type = "log_file" then parse_log_file grok content
  else if file_type = "config_file" then .configData (parse_config_file content)
  else if file_type = "package_list" then parse_package_list content
  else if file_type = "release_info" then parse_release_info content
  else .rawContent content

/- ===== TextProcessor._chunk_text (lines 334-341) ===== -/

/-- One step of the fallback slicing `[text[i:i+size] for i in
range(0, len(text), size)]`.  The fuel argument only bounds recursion
depth; the input length always suffices for a positive size. -/
def chunkCharsGo : Nat → Nat → List Char → List (List Char)
  | 0, _, _ => []
  | _ + 1, 0, _ => []
  | fuel + 1, size, l =>
    if l.isEmpty then []
    else l.take size :: chunkCharsGo fuel size (l.drop size)

/-- Fixed-size slicing of a character list. -/
def chunkChars (size : Nat) (l : List Char) : List (List Char) :=
  chunkCharsGo l.length size l

/-- The simple chunking fallback of `_chunk_text`. -/
def fallbackChunks (size : Nat) (text : String) : List String :=
  (chunkChars size text.data).map String.mk

/-- Embedding of `TextProcessor._chunk_text`: when a langchain text
splitter is available and the text exceeds the configured max chunk size,
delegate to the splitter; otherwise slice into fixed-size pieces. -/
def chunk_text (splitter : Option (String → List String)) (size : Nat)
    (text : String) : List String :=
  match splitter with
  | some sp => if text.length > size then sp text else fallbackChunks size text
  | none => fallbackChunks size text

/- ===== TextProcessor.process_files (lines 172-211) ===== -/

/-- The text-processing configuration consumed by `TextProcessor`: the
cleaning toggles, the configured max chunk size, the optional external
text splitter, and the compiled grok patterns. -/
structure TextProcConfig where
  cleaning : CleaningConfig
  max_chunk_size : Nat
  splitter : Option (String → List String)
  grok : GrokSet

/-- The per-file record produced by `process_files`, flattening the
nested metadata dictionary of the source. -/
structure ProcessedFile where
  file_type : String
  cleaned_content : String
  parsed_data : ParsedData
  chunks : List String
  original_size : Nat
  cleaned_size : Nat
  chunk_count : Nat
deriving DecidableEq

/-- The processing applied to one retained file: clean, classify, parse by
type, chunk, and record sizes.  The embedded steps are total, so the
per-file exception branch of the source is unreachable here. -/
def processOneFile (cfg : TextProcConfig) (path content : String) : ProcessedFile :=
  let cleaned := cleanText cfg.cleaning content
  let ftype := detectFileType path cleaned
  ⟨ftype, cleaned, parse_by_type cfg.grok ftype cleaned,
   chunk_text cfg.splitter cfg.max_chunk_size cleaned,
   content.length, cleaned.length,
   (chunk_text cfg.splitter cfg.max_chunk_size cleaned).length⟩

/-- Embedding of `TextProcessor.process_files`: skip entries whose content
is empty or starts with `Error`, process the rest into records. -/
def process_files (cfg : TextProcConfig) (raw_files : List (String × String)) :
    List (String × ProcessedFile) :=
  raw_files.foldl
    (fun acc pc =>
      if pc.2 = "" || strStartsWith pc.2 "Error" then acc
      else dictInsert acc pc.1 (processOneFile cfg pc.1 pc.2)) []

/- ===== FilesystemDataSourceAdapter.read_system_files (lines 94-116) ===== -/

/-- One file found by `_find_files`: its path relative to the system
directory and the outcome of `read_text` (content, or the message of the
exception the read raised). -/
structure FileEntry where
  relPath : String
  readResult : Except String String

/-- Abstraction of the backing filesystem: which system directories exist
under the base path, and which files each configured pattern matches for a
given system (with their read outcomes). -/
structure FilesystemModel where
  systemDirs : List String
  matched : String → String → List FileEntry

/-- The value stored for one read file: the content on success, the
`"Error: ..."` marker built from the exception message on failure. -/
def renderRead (f : FileEntry) : String :=
  match f.readResult with
  | .ok c => c
  | .error e => "Error: " ++ e

/-- Embedding of `FilesystemDataSourceAdapter.read_system_files`: raise
not-found when the system directory is missing; otherwise read every file
matched by every configured pattern, storing `"Error: ..."` under the
relative path of a file whose read raised. -/
def read_system_files (fs : FilesystemModel)
    (file_patterns : List (String × List String)) (system_id : String) :
    Except String (List (String × String)) :=
  if system_id ∈ fs.systemDirs then
    .ok (file_patterns.foldl
      (fun files pp =>
        pp.2.foldl
          (fun files pat =>
            (fs.matched system_id pat).foldl
              (fun files f => dictInsert files f.relPath (renderRead f))
              files) files) [])
  else .error ("System not found: " ++ system_id)

/-- All files matched for a system across the configured pattern groups,
in traversal order. -/
def allMatchedFiles (fs : FilesystemModel)
    (file_patterns : List (String × List String)) (system_id : String) :
    List FileEntry :=
  file_patterns.flatMap (fun pp => pp.2.flatMap (fun pat => fs.matched system_id pat))

/-- Concrete three-file fixture used to instantiate the adapter theorems:
one system directory, one pattern matching two readable files and one
whose read raises a permission error. -/
def c5fs : FilesystemModel :=
  ⟨["sys1"],
   fun sid pat =>
     if sid = "sys1" && pat = "*.log" then
       [⟨"a.log", .ok "alpha"⟩, ⟨"b.log", .error "Permission denied"⟩,
        ⟨"c.log", .ok "gamma"⟩]
     else []⟩

/-- Pattern configuration of the concrete fixture. -/
def c5patterns : List (String × List String) := [("logs", ["*.log"])]

/- ===== Data models (core/data_models.py) ===== -/

/-- Embedding of `SystemEntity` with the backward-compatibility attributes
the orchestrator attaches (`hostname`, `rhel_version`, `package_count`). -/
structure SystemEntity where
  system_id : String
  name : String
  system_type : String
  version : String
  environment : String
  location : String
  services : List String
  components : List String
  hostname : String
  rhel_version : String
  package_count : Nat
deriving DecidableEq

/-- Embedding of `EventEntity`; timestamps are abstracted as ticks. -/
structure EventEntity where
  event_id : String
  system_id : String
  event_type : String
  timestamp : Option Nat
  severity : String
  status : String
  title : String
  description : String
  source : String
deriving DecidableEq

/- ===== UniversalDataLoader (lines 822-1036) ===== -/

/-- A value of the processed-data map handed to the graph builder: either
a full `process_files` record (text processing enabled) or the raw
pass-through record holding only `cleaned_content`. -/
inductive ProcEntry where
  | full (pf : ProcessedFile)
  | rawOnly (cleaned_content : String)
deriving DecidableEq

/-- Python `file_data.get('cleaned_content', '')` on either record shape. -/
def cleanedContentOf : ProcEntry → String
  | .full pf => pf.cleaned_content
  | .rawOnly c => c

/-- Python `file_path.split('/')[-1].replace('.service', '')`. -/
def serviceNameFromPath (p : String) : String :=
  String.mk (replaceAll ".service".data [] ((pyLines (String.mk (p.data.map (fun c => if c = '/' then '\n' else c)))).getLastD "").data)

/-- The environment inferred from substring matches on the system id. -/
def inferEnvironment (system_id : String) : String :=
  let s := pyLower system_id
  if strHasSub "prod" s then "production"
  else if strHasSub "stage" s || strHasSub "staging" s then "staging"
  else if strHasSub "dev" s then "development"
  else "unknown"

/-- The loop state of `_create_basic_system_info`: current rhel version,
package count, and collected service names. -/
def basicInfoStep (acc : String × Nat × List String) (pc : String × ProcEntry) :
    String × Nat × List String :=
  let content := cleanedContentOf pc.2
  let ver :=
    if strHasSub "redhat-release" pc.1 && content ≠ "" && strHasSub "release" content then
      match searchRelease content.data with
      | some g => String.mk g
      | none => acc.1
    else acc.1
  let cnt :=
    if strHasSub "packages.txt" pc.1 && content ≠ "" then
      ((pyLines content).filter (fun ln => pyStrip ln.data ≠ [])).length
    else acc.2.1
  let svcs :=
    if strHasSub "systemd/system" pc.1 && strEndsWith pc.1 ".service" then
      acc.2.2 ++ [serviceNameFromPath pc.1]
    else acc.2.2
  (ver, cnt, svcs)

/-- Embedding of `UniversalDataLoader._create_basic_system_info`: a
single summary entity derived from simple heuristics over the processed
content. -/
def create_basic_system_info (system_id : String)
    (processed : List (String × ProcEntry)) : List SystemEntity :=
  let st := processed.foldl basicInfoStep ("unknown", 0, [])
  [{ system_id := system_id
     name := system_id
     system_type := "rhel_server"
     version := st.1
     environment := inferEnvironment system_id
     location := ""
     services := st.2.2
     components := []
     hostname := system_id
     rhel_version := st.1
     package_count := st.2.1 }]

/-- Outcome of `data_source.read_system_files` as the orchestrator sees
it: a file map, a not-found error, or any other exception. -/
inductive AdapterOutcome where
  | ok (files : List (String × String))
  | notFound (msg : String)
  | raised (msg : String)

/-- Outcome of `graph_builder.create_knowledge_graph` as the orchestrator
sees it: a boolean return, a raised RuntimeError, or any other exception. -/
inductive BuildOutcome where
  | returns (success : Bool)
  | raisedRuntime (msg : String)
  | raisedOther (msg : String)

/-- The components the orchestrator wires per configuration: the data
source adapter, the optional text processor, and the optional graph
builder. -/
structure PipelineEnv where
  readFiles : String → AdapterOutcome
  textProc : Option TextProcConfig
  graphBuilder : Option (String → List (String × ProcEntry) → BuildOutcome)

/-- Phase 2 of `load_system_data`: processed records when text processing
is enabled, raw pass-through records otherwise. -/
def toProcEntries (tp : Option TextProcConfig) (raw : List (String × String)) :
    List (String × ProcEntry) :=
  match tp with
  | some cfg => (process_files cfg raw).map (fun pv => (pv.1, ProcEntry.full pv.2))
  | none => raw.map (fun pc => (pc.1, ProcEntry.rawOnly pc.2))

/-- Embedding of `UniversalDataLoader.load_system_data`: read, process,
require a graph builder (else raise), build the knowledge graph (raise on
failure, naming the system), and catch adapter-level or other unexpected
exceptions into an empty result pair.  RuntimeErrors are re-raised by the
dedicated handler; every other exception falls to the generic handler. -/
def load_system_data (env : PipelineEnv) (system_id : String) :
    Except String (List SystemEntity × List EventEntity) :=
  match env.readFiles system_id with
  | .notFound _ => .ok ([], [])
  | .raised _ => .ok ([], [])
  | .ok raw =>
    let processed := toProcEntries env.textProc raw
    match env.graphBuilder with
    | none => .error "Knowledge graph builder required. Check LLM configuration and dependencies."
    | some create =>
      match create system_id processed with
      | .returns true => .ok (create_basic_system_info system_id processed, [])
      | .returns false => .error ("Knowledge graph creation failed for " ++ system_id ++ ". Check LLM connection, APOC plugin, and Neo4j setup.")
      | .raisedRuntime msg => .error msg
      | .raisedOther _ => .ok ([], [])

/- ===== AIGraphBuilder (core/graph_builders.py lines 185-270) ===== -/

/-- A graph document returned by the LLM graph transformer: extracted
node labels and relationship types. -/
structure GraphDoc where
  nodes : List String
  relationships : List String
deriving DecidableEq

/-- Outcome of `graph_transformer.convert_to_graph_documents`. -/
inductive ExtractOutcome where
  | docs (ds : List GraphDoc)
  | raised (msg : String)

/-- Outcome of `neo4j_graph.add_graph_documents`. -/
inductive PersistOutcome where
  | ok
  | raised (msg : String)

/-- The initialized state of an `AIGraphBuilder`: the optional LLM graph
transformer and the optional Neo4j connection, each abstracted as the
effect of its one call site. -/
structure AIBuilderState where
  graph_transformer : Option (String → ExtractOutcome)
  neo4j_graph : Option (List GraphDoc → PersistOutcome)

/-- The analysis-instructions block appended by
`AIGraphBuilder._build_analysis_context`. -/
def analysisInstructions (system_id : String) : String :=
  "\n\nKNOWLEDGE GRAPH INSTRUCTIONS:\nAnalyze the system data above and create a comprehensive knowledge graph.\n\nFocus on extracting:\n1. SYSTEMS: servers, databases, applications with their properties\n2. SERVICES: running processes, APIs, daemons with status/ports  \n3. COMPONENTS: software packages, libraries, modules\n4. EVENTS: incidents, changes, deployments, errors\n5. CONFIGURATIONS: settings, parameters, environment variables\n6. RELATIONSHIPS: how entities connect, depend on, or interact\n\nSystem Context: " ++ system_id ++ "\nExtract entities that represent real infrastructure, applications, and operational elements.\n"

/-- Embedding of `AIGraphBuilder._build_analysis_context`: the system
header, a section per file with non-blank cleaned content, and the
instructions block, joined by newlines. -/
def build_analysis_context (system_id : String)
    (processed : List (String × ProcEntry)) : String :=
  let middle := processed.foldl
    (fun parts pv =>
      if pyStrip (cleanedContentOf pv.2).data ≠ [] then
        parts ++ ["\n--- FILE: " ++ pv.1 ++ " ---", cleanedContentOf pv.2]
      else parts) []
  joinWithNewline
    ((("SYSTEM ANALYSIS: " ++ system_id) :: middle) ++ [analysisInstructions system_id])

/-- Embedding of `AIGraphBuilder.create_knowledge_graph`: false when the
builder is uninitialized, when the assembled context strips to blank, when
extraction yields no documents, or when extraction or persistence raises;
true only after documents are extracted and stored. -/
def create_knowledge_graph (st : AIBuilderState) (system_id : String)
    (processed : List (String × ProcEntry)) : Bool :=
  match st.graph_transformer, st.neo4j_graph with
  | some convert, some addDocs =>
    let ctx := build_analysis_context system_id processed
    if pyStrip ctx.data = [] then false
    else
      match convert ctx with
      | .raised _ => false
      | .docs [] => false
      | .docs (d :: ds) =>
        match addDocs (d :: ds) with
        | .ok => true
        | .raised _ => false
  | _, _ => false

/- ===== Neo4jGraphLoader (lines 572-771) ===== -/

/-- Properties a `SET` clause writes on a `System` node; `updated_at`
records the non-deterministic `datetime()` as a tick. -/
structure SystemProps where
  hostname : String
  rhel_version : String
  environment : String
  package_count : Nat
  updated_at : Nat
deriving DecidableEq

/-- Properties a `SET` clause writes on an `Event` node. -/
structure EventProps where
  system_id : String
  event_type : String
  timestamp : Option Nat
  severity : String
  status : String
  title : String
  description : String
  source : String
  updated_at : Nat
deriving DecidableEq

/-- The persisted graph, modelled from the store contract the loader
relies on: nodes keyed by their uniqueness key (`system_id` for systems,
`name` for services, `event_id` for events) and relationship sets.
A Cypher `MERGE` is an upsert on the key; `SET` overwrites properties. -/
structure GraphState where
  systems : List (String × SystemProps)
  services : List String
  events : List (String × EventProps)
  runs : List (String × String)
  hasEvent : List (String × String)
deriving DecidableEq

/-- The empty store (after `MATCH (n) DETACH DELETE n`). -/
def emptyGraphState : GraphState := ⟨[], [], [], [], []⟩

/-- The properties a bare `MERGE (s:System {system_id: $id})` writes when
it has to create the node: only the key, no `SET`. -/
def bareSystemProps : SystemProps := ⟨"", "", "", 0, 0⟩

/-- A `MERGE` that creates the keyed node when absent and leaves the
existing one untouched (no `SET` clause). -/
def mergeBareNode {α : Type} (nodes : List (String × α)) (key : String)
    (init : α) : List (String × α) :=
  if nodes.any (fun kv => kv.1 = key) then nodes else nodes ++ [(key, init)]

/-- The body of the per-service loop of `_load_systems`: bare-merge the
system node, merge the service node, merge the `RUNS` relationship. -/
def loadServiceStep (sid : String) (st : GraphState) (svc : String) :
    GraphState :=
  { st with
    systems := mergeBareNode st.systems sid bareSystemProps
    services := insertKey st.services svc
    runs := insertKey st.runs (sid, svc) }

/-- The body of the per-system loop of `_load_systems`: merge the system
node with its property set, then run the per-service loop. -/
def loadSystemStep (t : Nat) (st : GraphState) (sys : SystemEntity) :
    GraphState :=
  sys.services.foldl (loadServiceStep sys.system_id)
    { st with
      systems := dictInsert st.systems sys.system_id
        ⟨sys.hostname, sys.rhel_version, sys.environment, sys.package_count, t⟩ }

/-- Embedding of `Neo4jGraphLoader._load_systems`: merge each system node
with its property set, then merge service nodes and `RUNS` relationships
per declared service. -/
def neo4j_load_systems (t : Nat) (st : GraphState)
    (systems : List SystemEntity) : GraphState :=
  systems.foldl (loadSystemStep t) st

/-- The body of the per-event loop of `_load_events`. -/
def loadEventStep (t : Nat) (st : GraphState) (ev : EventEntity) :
    GraphState :=
  { st with
    events := dictInsert st.events ev.event_id
      ⟨ev.system_id, ev.event_type, ev.timestamp, ev.severity, ev.status,
       ev.title, ev.description, ev.source, t⟩ }

/-- Embedding of `Neo4jGraphLoader._load_events`: merge each event node
keyed by `event_id` with its full property set. -/
def neo4j_load_events (t : Nat) (st : GraphState)
    (events : List EventEntity) : GraphState :=
  events.foldl (loadEventStep t) st

/-- The body of the per-event loop of `_create_relationships`: a `MATCH`
on both endpoints followed by a relationship merge; a `MATCH` that finds
nothing leaves the store unchanged. -/
def relStep (st : GraphState) (ev : EventEntity) : GraphState :=
  if st.systems.any (fun kv => kv.1 = ev.system_id)
      && st.events.any (fun kv => kv.1 = ev.event_id) then
    { st with hasEvent := insertKey st.hasEvent (ev.system_id, ev.event_id) }
  else st

/-- Embedding of `Neo4jGraphLoader._create_relationships`: connect each
event to its owning system when both nodes exist. -/
def neo4j_create_relationships (st : GraphState)
    (events : List EventEntity) : GraphState :=
  events.foldl relStep st

/-- Embedding of `Neo4jGraphLoader.load_systems_and_events` (state
effect): optionally clear, then load systems, events, relationships. -/
def load_systems_and_events (clearOnStartup : Bool) (t : Nat)
    (st : GraphState) (systems : List SystemEntity)
    (events : List EventEntity) : GraphState :=
  let st0 := if clearOnStartup then emptyGraphState else st
  neo4j_create_relationships
    (neo4j_load_events t (neo4j_load_systems t st0 systems) events) events

/-- Total number of nodes in the persisted graph. -/
def nodeCount (st : GraphState) : Nat :=
  st.systems.length + st.services.length + st.events.length

/-- Total number of relationships in the persisted graph. -/
def relCount (st : GraphState) : Nat :=
  st.runs.length + st.hasEvent.length

/-- Concrete text-processing configuration used to instantiate the
processing theorems: default cleaning toggles, default chunk size, no
langchain splitter, no grok patterns. -/
def c9cfg : TextProcConfig := ⟨⟨true, true, true⟩, 2000, none, []⟩

/-- Orchestrator fixture whose graph builder always reports failure. -/
def c1env : PipelineEnv := ⟨fun _ => .ok [], none, some (fun _ _ => .returns false)⟩

/-- Orchestrator fixture with no configured graph builder. -/
def c1envNoBuilder : PipelineEnv := ⟨fun _ => .ok [], none, none⟩

/-- Orchestrator fixture whose adapter reports the system as missing. -/
def c1envNotFound : PipelineEnv :=
  ⟨fun sid => .notFound ("System not found: " ++ sid), none, none⟩

/-- Orchestrator fixture whose adapter raises an unexpected exception. -/
def c1envRaised : PipelineEnv := ⟨fun _ => .raised "disk offline", none, none⟩

/-- Decidable equality for exception-carrying results. -/
instance exceptDecEq {e a : Type} [DecidableEq e] [DecidableEq a] :
    DecidableEq (Except e a) := fun x y =>
  match x, y with
  | .ok u, .ok v => if h : u = v then .isTrue (by rw [h]) else .isFalse (by simp [h])
  | .error u, .error v => if h : u = v then .isTrue (by rw [h]) else .isFalse (by simp [h])
  | .ok _, .error _ => .isFalse (by simp)
  | .error _, .ok _ => .isFalse (by simp)

/-- Decidable equality for file entries. -/
instance fileEntryDecEq : DecidableEq FileEntry := fun a b =>
  if h1 : a.relPath = b.relPath then
    if h2 : a.readResult = b.readResult then
      .isTrue (by cases a; cases b; simp_all)
    else .isFalse (by intro h; cases h; exact h2 rfl)
  else .isFalse (by intro h; cases h; exact h1 rfl)

/-- Accumulating insertions, the key-level trace of a sequence of
merges. -/
def foldIns {α : Type} [DecidableEq α] (ks : List α) (l : List α) : List α :=
  l.foldl insertKey ks

/-- The system-node keys touched by `_load_systems`, in merge order: each
system id once for its property merge and once per declared service. -/
def sysKeyOccurrences (systems : List SystemEntity) : List String :=
  systems.flatMap
    (fun sys => sys.system_id :: sys.services.map (fun _ => sys.system_id))

/-- The service-node keys touched by `_load_systems`. -/
def serviceOccurrences (systems : List SystemEntity) : List String :=
  systems.flatMap (fun sys => sys.services)

/-- The `RUNS` relationship keys touched by `_load_systems`. -/
def runOccurrences (systems : List SystemEntity) : List (String × String) :=
  systems.flatMap
    (fun sys => sys.services.map (fun svc => (sys.system_id, svc)))

/-- The event-node keys touched by `_load_events`. -/
def eventKeyOccurrences (events : List EventEntity) : List String :=
  events.map (fun ev => ev.event_id)

/-- The `HAS_EVENT` pairs merged by `_create_relationships` against given
system and event key sets. -/
def hasEventPairs (sysKeys evtKeys : List String)
    (events : List EventEntity) : List (String × String) :=
  (events.filter
    (fun ev => decide (ev.system_id ∈ sysKeys) && decide (ev.event_id ∈ evtKeys))).map
    (fun ev => (ev.system_id, ev.event_id))

/- ===================== Theorems ===================== -/

/- ===== General lemmas about the string primitives ===== -/

/-- A list is a Boolean prefix of itself followed by anything. -/
theorem isPrefixOf_append_self (n t : List Char) : n.isPrefixOf (n ++ t) = true := by
  induction n with
  | nil => simp [List.isPrefixOf]
  | cons c m ih => simp [List.isPrefixOf, ih]

/-- A Boolean prefix of a list is found by the substring test. -/
theorem hasSub_of_isPre (n h : List Char) (hp : n.isPrefixOf h = true) :
    hasSub n h = true := by
  cases h with
  | nil =>
    cases n with
    | nil => rfl
    | cons c m => simp [List.isPrefixOf] at hp
  | cons c t => simp [hasSub, hp]

/-- The substring test finds an explicitly embedded copy of the needle. -/
theorem hasSub_of_embedded (a n b : List Char) :
    hasSub n (a ++ (n ++ b)) = true := by
  induction a with
  | nil => exact hasSub_of_isPre n (n ++ b) (isPrefixOf_append_self n b)
  | cons c a2 ih =>
    rw [List.cons_append]
    simp [hasSub, ih]

/-- Scanning for ANSI escapes in a list that contains no ESC character
returns the list unchanged, for any fuel. -/
theorem removeAnsiGo_no_esc (fuel : Nat) (l : List Char)
    (h : '\x1b' ∉ l) : removeAnsiGo fuel l = l := by
  induction fuel generalizing l with
  | zero => rfl
  | succ n ih =>
    cases l with
    | nil => rfl
    | cons c rest =>
      have hc : c ≠ '\x1b' := fun hc => h (hc ▸ List.mem_cons_self c rest)
      have hrest : '\x1b' ∉ rest := fun hr => h (List.mem_cons_of_mem c hr)
      simp [removeAnsiGo, hc, ih rest hrest]

/-- ANSI removal is the identity on text without the ESC character. -/
theorem removeAnsi_no_esc (l : List Char) (h : '\x1b' ∉ l) :
    removeAnsi l = l :=
  removeAnsiGo_no_esc l.length l h

/- ===== Claim C2: cleaning options ===== -/

/-- C2 counterexample: with all three cleaning options disabled,
`_clean_text` still strips leading and trailing whitespace, so the text
`" a"` is not returned unchanged. -/
theorem c2_clean_text_counterexample :
    cleanText ⟨false, false, false⟩ " a" = "a" ∧ (" a" : String) ≠ "a" := by
  constructor
  · decide
  · decide

/-- C2 (amended): with all cleaning options disabled, `_clean_text`
returns the input stripped of leading and trailing whitespace — hence
unchanged exactly on inputs that are already stripped; with only
ANSI-removal enabled, cleaning `"\x1b[31mERROR\x1b[0m"` yields `"ERROR"`,
and input without the ESC character is preserved up to the final strip. -/
theorem c2_clean_text_options :
    (∀ t : String, cleanText ⟨false, false, false⟩ t = pyStripStr t) ∧
    (∀ t : String, pyStripStr t = t → cleanText ⟨false, false, false⟩ t = t) ∧
    cleanText ⟨true, false, false⟩ "\x1b[31mERROR\x1b[0m" = "ERROR" ∧
    (∀ t : String, '\x1b' ∉ t.data → cleanText ⟨true, false, false⟩ t = pyStripStr t) := by
  have hall : ∀ t : String, cleanText ⟨false, false, false⟩ t = pyStripStr t := by
    intro t; simp [cleanText]
  refine ⟨hall, fun t ht => (hall t).trans ht, by decide, ?_⟩
  intro t ht
  simp [cleanText, removeAnsi_no_esc t.data ht, pyStripStr]

/-- C2 witness: the amended statement applied at concrete inputs. -/
theorem c2_clean_text_options_witness :
    pyStripStr "hello" = "hello" ∧ ('\x1b' ∉ ("hello" : String).data) ∧
    cleanText ⟨false, false, false⟩ "hello" = "hello" ∧
    cleanText ⟨true, false, false⟩ "hello" = pyStripStr "hello" :=
  ⟨by decide, by decide,
   c2_clean_text_options.2.1 "hello" (by decide),
   c2_clean_text_options.2.2.2 "hello" (by decide)⟩

/- ===== Claim C7: file-type detection ===== -/

/-- C7: `_detect_file_type` is total and deterministic: for every path and
content it returns one tag from the finite tag set (via the ordered
first-match checks with `unknown` as default), and equal inputs give equal
results. -/
theorem c7_detect_file_type_total :
    ∀ path content : String,
      detectFileType path content ∈
        ["log_file", "config_file", "systemd_service", "package_list",
         "release_info", "repository_config", "unknown"] ∧
      (∀ path2 content2 : String, path2 = path → content2 = content →
        detectFileType path2 content2 = detectFileType path content) := by
  intro path content
  refine ⟨?_, fun p2 c2 hp hc => by rw [hp, hc]⟩
  simp only [detectFileType]
  split_ifs <;> simp

/-- C7 witness: the totality and determinism statement at a concrete
path and content. -/
theorem c7_detect_file_type_total_witness :
    detectFileType "var/log/app.log" "boot ok" ∈
      ["log_file", "config_file", "systemd_service", "package_list",
       "release_info", "repository_config", "unknown"] ∧
    detectFileType "var/log/app.log" "boot ok"
      = detectFileType "var/log/app.log" "boot ok" :=
  ⟨(c7_detect_file_type_total "var/log/app.log" "boot ok").1,
   (c7_detect_file_type_total "var/log/app.log" "boot ok").2
     "var/log/app.log" "boot ok" rfl rfl⟩

/- ===== Lemmas about the fallback chunking ===== -/

/-- Slicing the empty list yields no chunks, for any fuel and size. -/
theorem chunkCharsGo_nil (fuel size : Nat) : chunkCharsGo fuel size [] = [] := by
  cases fuel with
  | zero => rfl
  | succ n => cases size with
    | zero => rfl
    | succ m => simp [chunkCharsGo]

/-- Unfolding of the fallback slicing on a non-empty list with positive
size. -/
theorem chunkCharsGo_cons (fuel m : Nat) (l : List Char) (hl : l ≠ []) :
    chunkCharsGo (fuel + 1) (m + 1) l
      = l.take (m + 1) :: chunkCharsGo fuel (m + 1) (l.drop (m + 1)) := by
  simp [chunkCharsGo, hl]

/-- Every slice produced by the fallback chunking has length at most the
chunk size. -/
theorem chunkCharsGo_length_le :
    ∀ (fuel size : Nat) (l ch : List Char),
      ch ∈ chunkCharsGo fuel size l → ch.length ≤ size := by
  intro fuel
  induction fuel with
  | zero => intro size l ch h; simp [chunkCharsGo] at h
  | succ n ih =>
    intro size l ch h
    cases size with
    | zero => simp [chunkCharsGo] at h
    | succ m =>
      by_cases hl : l = []
      · subst hl; rw [chunkCharsGo_nil] at h; simp at h
      · rw [chunkCharsGo_cons n m l hl, List.mem_cons] at h
        rcases h with h | h
        · subst h; simp [List.length_take_le]
        · exact ih _ _ _ h

/-- With positive size and enough fuel, the fallback slices concatenate
back to the original list: no gaps, no overlap, no duplication. -/
theorem chunkCharsGo_flatten :
    ∀ (fuel size : Nat) (l : List Char), 0 < size → l.length ≤ fuel →
      (chunkCharsGo fuel size l).flatten = l := by
  intro fuel
  induction fuel with
  | zero =>
    intro size l _ hfuel
    have : l = [] := List.eq_nil_of_length_eq_zero (Nat.le_zero.mp hfuel)
    subst this; rfl
  | succ n ih =>
    intro size l hsize hfuel
    cases size with
    | zero => exact absurd hsize (by omega)
    | succ m =>
      by_cases hl : l = []
      · subst hl; rw [chunkCharsGo_nil]; rfl
      · have hlen : 0 < l.length := List.length_pos.mpr hl
        have hdrop : (l.drop (m + 1)).length ≤ n := by
          rw [List.length_drop]; omega
        rw [chunkCharsGo_cons n m l hl, List.flatten_cons, ih _ _ (by omega) hdrop]
        exact List.take_append_drop (m + 1) l

/-- Folding string concatenation over packed character lists packs their
concatenation. -/
theorem foldl_append_map_mk :
    ∀ (ls : List (List Char)) (acc : List Char),
      List.foldl (fun r s => r ++ s) (String.mk acc) (ls.map String.mk)
        = String.mk (acc ++ ls.flatten) := by
  intro ls
  induction ls with
  | nil => intro acc; simp
  | cons b bs ih =>
    intro acc
    have hstep : String.mk acc ++ String.mk b = String.mk (acc ++ b) := rfl
    simp only [List.map_cons, List.foldl_cons, hstep, ih, List.flatten_cons,
      List.append_assoc]

/-- Joining the fallback chunks reconstructs the text, for positive chunk
size. -/
theorem fallbackChunks_join (size : Nat) (text : String) (hsize : 0 < size) :
    String.join (fallbackChunks size text) = text := by
  have h := foldl_append_map_mk (chunkChars size text.data) []
  simp only [List.nil_append] at h
  show List.foldl (fun r s => r ++ s) "" ((chunkChars size text.data).map String.mk) = text
  rw [show ("" : String) = String.mk [] from rfl, h]
  show String.mk ((chunkCharsGo text.data.length size text.data).flatten) = text
  rw [chunkCharsGo_flatten text.data.length size text.data hsize (le_refl _)]

/-- A non-empty text not exceeding the chunk size is a single chunk. -/
theorem fallbackChunks_single (size : Nat) (text : String) (hsize : 0 < size)
    (hpos : 0 < text.length) (hle : text.length ≤ size) :
    fallbackChunks size text = [text] := by
  obtain ⟨m, hm⟩ : ∃ m, size = m + 1 := ⟨size - 1, by omega⟩
  subst hm
  have hne : text.data ≠ [] := by
    intro hnil
    rw [show text.length = text.data.length from rfl, hnil] at hpos
    simp at hpos
  obtain ⟨f, hf⟩ : ∃ f, text.data.length = f + 1 := ⟨text.data.length - 1, by
    have : 0 < text.data.length := List.length_pos.mpr hne
    omega⟩
  unfold fallbackChunks chunkChars
  rw [hf, chunkCharsGo_cons f m text.data hne]
  have hlen : text.data.length ≤ m + 1 := hle
  rw [List.take_of_length_le hlen, List.drop_eq_nil_of_le hlen, chunkCharsGo_nil]
  rfl

/- ===== Claim C6: chunk size bound and single chunk ===== -/

/-- C6 counterexample: the empty text has length at most the default max
chunk size 2000 yet yields zero chunks, not exactly one. -/
theorem c6_chunk_counterexample :
    chunk_text none 2000 "" = [] ∧ ("" : String).length ≤ 2000 ∧
      chunk_text none 2000 "" ≠ [""] := by
  refine ⟨by decide, by decide, by decide⟩

/-- C6 (amended): on the fallback path every produced chunk has length at
most the configured max chunk size; any non-empty text whose length does
not exceed the max chunk size yields exactly one chunk — itself —
regardless of splitter availability, since such texts never reach the
splitter; and the empty text yields no chunks at all. -/
theorem c6_chunk_size_bound :
    ∀ (sp : Option (String → List String)) (size : Nat) (text : String),
      (∀ ch ∈ chunk_text none size text, ch.length ≤ size) ∧
      (0 < size → 0 < text.length → text.length ≤ size →
        chunk_text sp size text = [text]) ∧
      chunk_text sp size "" = [] := by
  intro sp size text
  refine ⟨?_, ?_, ?_⟩
  · intro ch hch
    simp only [chunk_text, fallbackChunks, List.mem_map] at hch
    obtain ⟨cs, hcs, rfl⟩ := hch
    exact chunkCharsGo_length_le _ _ _ _ hcs
  · intro hsize hpos hle
    have hfall : fallbackChunks size text = [text] :=
      fallbackChunks_single size text hsize hpos hle
    cases sp with
    | none => exact hfall
    | some f =>
      simp only [chunk_text]
      rw [if_neg (by omega)]
      exact hfall
  · have : fallbackChunks size "" = [] := by
      unfold fallbackChunks chunkChars
      rw [show ("" : String).data = [] from rfl, chunkCharsGo_nil]
      rfl
    cases sp with
    | none => exact this
    | some f =>
      simp only [chunk_text]
      rw [if_neg (by simp)]
      exact this

/-- C6 witness: the amended statement applied at the default
configuration and a small text. -/
theorem c6_chunk_size_bound_witness :
    chunk_text (some (fun s => [s])) 2000 "abc" = ["abc"] :=
  (c6_chunk_size_bound (some (fun s => [s])) 2000 "abc").2.1
    (by decide) (by decide) (by decide)

/- ===== Claim C10: fallback chunk round trip ===== -/

/-- C10: on the fallback path (no langchain splitter), the chunks
concatenate in order to exactly the original text — disjoint fixed-size
slices with no gaps, no overlap and no duplication — and the empty text
yields an empty chunk list. -/
theorem c10_fallback_round_trip :
    ∀ (size : Nat) (text : String),
      (0 < size → String.join (chunk_text none size text) = text) ∧
      chunk_text none size "" = [] := by
  intro size text
  constructor
  · intro hsize
    exact fallbackChunks_join size text hsize
  · show fallbackChunks size "" = []
    unfold fallbackChunks chunkChars
    rw [show ("" : String).data = [] from rfl, chunkCharsGo_nil]
    rfl

/-- C10 witness: the round trip at a concrete size and text whose length
is not a multiple of the chunk size. -/
theorem c10_fallback_round_trip_witness :
    String.join (chunk_text none 3 "abcdefg") = "abcdefg" :=
  (c10_fallback_round_trip 3 "abcdefg").1 (by decide)

/- ===== Lemmas about strip and first-equals splitting ===== -/

/-- Dropping while a predicate holds passes over an embedded failing
element: the walk stops no later than that element. -/
theorem dropWhile_append_not (p : Char → Bool) (a b : List Char) (c : Char)
    (hc : p c = false) :
    (a ++ c :: b).dropWhile p = a.dropWhile p ++ c :: b := by
  induction a with
  | nil => simp [List.dropWhile, hc]
  | cons d t ih =>
    by_cases hd : p d
    · simp [List.dropWhile, hd, ih]
    · simp [List.dropWhile, hd]

/-- Taking while a predicate holds collects exactly the prefix before an
embedded failing element, when the whole prefix satisfies it. -/
theorem takeWhile_append_all (p : Char → Bool) (a b : List Char) (c : Char)
    (ha : ∀ x ∈ a, p x = true) (hc : p c = false) :
    (a ++ c :: b).takeWhile p = a := by
  induction a with
  | nil => simp [List.takeWhile, hc]
  | cons d t ih =>
    have hd : p d = true := ha d (List.mem_cons_self d t)
    simp [List.takeWhile, hd]
    exact ih (fun x hx => ha x (List.mem_cons_of_mem d hx))

/-- A list fixed by `strip` has no leading whitespace. -/
theorem dropWhile_eq_self_of_pyStrip (l : List Char) (h : pyStrip l = l) :
    l.dropWhile isPySpace = l := by
  have hsuf : l.dropWhile isPySpace <:+ l := List.dropWhile_suffix isPySpace
  have h1 : (pyStrip l).length ≤ (l.dropWhile isPySpace).length := by
    unfold pyStrip
    rw [List.length_reverse]
    calc ((l.dropWhile isPySpace).reverse.dropWhile isPySpace).length
        ≤ (l.dropWhile isPySpace).reverse.length :=
          (List.dropWhile_suffix isPySpace).length_le
      _ = (l.dropWhile isPySpace).length := List.length_reverse _
  have h2 : (l.dropWhile isPySpace).length ≤ l.length := hsuf.length_le
  have hlen : (pyStrip l).length = l.length := congrArg List.length h
  exact hsuf.eq_of_length (by omega)

/-- A list fixed by `strip` has no trailing whitespace. -/
theorem reverse_dropWhile_eq_self_of_pyStrip (l : List Char)
    (h : pyStrip l = l) : l.reverse.dropWhile isPySpace = l.reverse := by
  have hd := dropWhile_eq_self_of_pyStrip l h
  have h2 : (l.reverse.dropWhile isPySpace).reverse = l := by
    calc (l.reverse.dropWhile isPySpace).reverse
        = ((l.dropWhile isPySpace).reverse.dropWhile isPySpace).reverse := by rw [hd]
      _ = pyStrip l := rfl
      _ = l := h
  calc l.reverse.dropWhile isPySpace
      = (l.reverse.dropWhile isPySpace).reverse.reverse := (List.reverse_reverse _).symm
    _ = l.reverse := by rw [h2]

/-- Stripping a stripped key, an equals sign, and a stripped value is the
identity. -/
theorem pyStrip_keyval (k v : List Char) (hk : pyStrip k = k)
    (hv : pyStrip v = v) : pyStrip (k ++ '=' :: v) = k ++ '=' :: v := by
  have hne : isPySpace '=' = false := by decide
  have h1 : (k ++ '=' :: v).dropWhile isPySpace = k ++ '=' :: v := by
    rw [dropWhile_append_not isPySpace k v '=' hne,
      dropWhile_eq_self_of_pyStrip k hk]
  unfold pyStrip
  rw [h1]
  have h2 : (k ++ '=' :: v).reverse = v.reverse ++ '=' :: k.reverse := by
    simp
  rw [h2, dropWhile_append_not isPySpace v.reverse k.reverse '=' hne,
    reverse_dropWhile_eq_self_of_pyStrip v hv]
  simp

/-- Splitting at the first equals sign around an explicit equals sign with
an equals-free left part. -/
theorem splitFirstEq_append (k v : List Char) (h : '=' ∉ k) :
    splitFirstEq (k ++ '=' :: v) = (k, v) := by
  have ha : ∀ x ∈ k, (fun c => decide (c ≠ '=')) x = true := by
    intro x hx
    simp only [decide_eq_true_eq]
    exact fun hxe => h (hxe ▸ hx)
  have hc : (fun c => decide (c ≠ '=')) '=' = false := by decide
  have hall : k.dropWhile (fun c => decide (c ≠ '=')) = [] :=
    List.dropWhile_eq_nil_iff.mpr (fun x hx => ha x hx)
  unfold splitFirstEq
  rw [takeWhile_append_all _ k v '=' ha hc,
    dropWhile_append_not _ k v '=' hc, hall]
  rfl

/-- A line that strips to blank, starts with the comment marker, or has no
equals sign contributes nothing, whatever the accumulator. -/
theorem configLineStep_skip (acc : List (String × String)) (rawLine : String)
    (h : pyStripStr rawLine = "" ∨ strStartsWith (pyStripStr rawLine) "#" = true ∨
      strHasSub "=" (pyStripStr rawLine) = false) :
    configLineStep acc rawLine = acc := by
  rcases h with h | h | h
  · simp [configLineStep, h]
  · simp [configLineStep, h]
  · simp [configLineStep, h]

/- ===== Claim C8: config-file parsing ===== -/

/-- C8: the concrete scenario parses to exactly the two expected pairs
with the comment line excluded; in general a line that strips to blank,
starts with `#`, or lacks `=` contributes nothing, and a line formed from
a stripped, equals-free key, an equals sign, and a stripped value
contributes exactly that key-value pair (split at the first `=`). -/
theorem c8_parse_config_file :
    parse_config_file "proxy=http://proxy.example.com:8080\n# comment\nempty_ignored="
      = ⟨[("proxy", "http://proxy.example.com:8080"), ("empty_ignored", "")], 2⟩ ∧
    (∀ (pre post : List String) (line : String),
      (pyStripStr line = "" ∨ strStartsWith (pyStripStr line) "#" = true ∨
        strHasSub "=" (pyStripStr line) = false) →
      parseConfigLines (pre ++ line :: post) = parseConfigLines (pre ++ post)) ∧
    (∀ k v : String, '=' ∉ k.data → pyStripStr k = k → pyStripStr v = v →
      strStartsWith (k ++ "=" ++ v) "#" = false →
      parseConfigLines [k ++ "=" ++ v] = [(k, v)]) := by
  refine ⟨by decide, ?_, ?_⟩
  · intro pre post line h
    unfold parseConfigLines
    rw [List.foldl_append, List.foldl_cons, configLineStep_skip _ line h,
      ← List.foldl_append]
  · intro k v hk hsk hsv hhash
    have hk2 : pyStrip k.data = k.data := congrArg String.data hsk
    have hv2 : pyStrip v.data = v.data := congrArg String.data hsv
    have hdata : (k ++ "=" ++ v).data = k.data ++ '=' :: v.data := by
      rw [show (k ++ "=" ++ v).data = (k.data ++ ['=']) ++ v.data from rfl,
        List.append_assoc]
      rfl
    have hstrip : pyStripStr (k ++ "=" ++ v) = k ++ "=" ++ v := by
      show String.mk (pyStrip (k ++ "=" ++ v).data) = k ++ "=" ++ v
      rw [hdata, pyStrip_keyval k.data v.data hk2 hv2, ← hdata]
    have hne : (k ++ "=" ++ v) ≠ "" := by
      intro he
      have h0 : (k ++ "=" ++ v).data = [] := congrArg String.data he
      rw [hdata] at h0
      exact absurd h0 (by simp)
    have hsub : strHasSub "=" (k ++ "=" ++ v) = true := by
      show hasSub ['='] (k ++ "=" ++ v).data = true
      rw [hdata]
      exact hasSub_of_embedded k.data ['='] v.data
    show configLineStep [] (k ++ "=" ++ v) = [(k, v)]
    unfold configLineStep
    simp only [hstrip]
    rw [if_pos (by simp [hne, hhash, hsub])]
    rw [hdata, splitFirstEq_append k.data v.data hk]
    show dictInsert [] (pyStripStr k) (pyStripStr v) = [(k, v)]
    rw [hsk, hsv]
    rfl

/-- C8 witness: the general statements applied at concrete lines. -/
theorem c8_parse_config_file_witness :
    parseConfigLines ["a=1", "# note", "b=2"] = parseConfigLines ["a=1", "b=2"] ∧
    parseConfigLines ["host" ++ "=" ++ "example.org"] = [("host", "example.org")] :=
  ⟨c8_parse_config_file.2.1 ["a=1"] ["b=2"] "# note" (Or.inr (Or.inl (by decide))),
   c8_parse_config_file.2.2 "host" "example.org" (by decide) (by decide)
     (by decide) (by decide)⟩

/- ===== Lemmas about dictionaries and the filesystem adapter ===== -/

/-- Folding over a flat-mapped list is the nested fold. -/
theorem foldl_flatMap {α β γ : Type} (l : List α) (g : α → List β)
    (f : γ → β → γ) (i : γ) :
    (l.flatMap g).foldl f i = l.foldl (fun acc x => (g x).foldl f acc) i := by
  induction l generalizing i with
  | nil => rfl
  | cons a t ih => simp [List.flatMap_cons, List.foldl_append, ih]

/-- A dictionary update walks past a non-matching head entry. -/
theorem dictInsert_cons_ne {α : Type} (kv : String × α) (rest : List (String × α))
    (k : String) (v : α) (hk : kv.1 ≠ k) :
    dictInsert (kv :: rest) k v = kv :: dictInsert rest k v := by
  by_cases hany : rest.any (fun kv => kv.1 = k) <;> simp [dictInsert, hk, hany]

/-- A dictionary update overwrites a matching head entry in place. -/
theorem dictInsert_cons_eq {α : Type} (kv : String × α) (rest : List (String × α))
    (k : String) (v : α) (hk : kv.1 = k) :
    dictInsert (kv :: rest) k v
      = (k, v) :: rest.map (fun kv => if kv.1 = k then (k, v) else kv) := by
  simp [dictInsert, hk]

/-- Rewriting the entries of one key does not affect lookups of another. -/
theorem dictLookup_map_update_other {α : Type} (rest : List (String × α))
    (k k2 : String) (v : α) (h : k2 ≠ k) :
    dictLookup (rest.map (fun kv => if kv.1 = k then (k, v) else kv)) k2
      = dictLookup rest k2 := by
  induction rest with
  | nil => rfl
  | cons kv t ih =>
    by_cases hk : kv.1 = k
    · simp [dictLookup, hk, Ne.symm h, ih]
    · by_cases hk2 : kv.1 = k2 <;> simp [dictLookup, hk, hk2, h, ih]

/-- Updating a key makes it resolve to the new value. -/
theorem dictLookup_dictInsert_same {α : Type} (m : List (String × α))
    (k : String) (v : α) : dictLookup (dictInsert m k v) k = some v := by
  induction m with
  | nil => simp [dictInsert, dictLookup]
  | cons kv rest ih =>
    by_cases hk : kv.1 = k
    · rw [dictInsert_cons_eq kv rest k v hk]
      simp [dictLookup]
    · rw [dictInsert_cons_ne kv rest k v hk]
      simp [dictLookup, hk, ih]

/-- Updating one key leaves other keys unchanged. -/
theorem dictLookup_dictInsert_other {α : Type} (m : List (String × α))
    (k k2 : String) (v : α) (h : k2 ≠ k) :
    dictLookup (dictInsert m k v) k2 = dictLookup m k2 := by
  induction m with
  | nil => simp [dictInsert, dictLookup, Ne.symm h]
  | cons kv rest ih =>
    by_cases hk : kv.1 = k
    · rw [dictInsert_cons_eq kv rest k v hk]
      have hne : k ≠ k2 := Ne.symm h
      simp [dictLookup, hne, hk, dictLookup_map_update_other rest k k2 v h]
    · rw [dictInsert_cons_ne kv rest k v hk]
      by_cases hk2 : kv.1 = k2 <;> simp [dictLookup, hk2, ih]

/-- Folding file entries whose relative paths avoid a key leaves that key
unresolved or unchanged. -/
theorem dictLookup_foldl_files_not_mem (fs : List FileEntry)
    (m : List (String × String)) (k : String)
    (h : k ∉ fs.map FileEntry.relPath) :
    dictLookup (fs.foldl (fun m f => dictInsert m f.relPath (renderRead f)) m) k
      = dictLookup m k := by
  induction fs generalizing m with
  | nil => rfl
  | cons f rest ih =>
    simp only [List.map_cons, List.mem_cons] at h
    push_neg at h
    rw [List.foldl_cons, ih _ h.2, dictLookup_dictInsert_other _ _ _ _ h.1]

/-- When relative paths are distinct, every matched file resolves to its
rendered read outcome after the fold. -/
theorem dictLookup_foldl_files_mem (fs : List FileEntry)
    (m : List (String × String)) (f : FileEntry) (hf : f ∈ fs)
    (hnd : (fs.map FileEntry.relPath).Nodup) :
    dictLookup (fs.foldl (fun m f => dictInsert m f.relPath (renderRead f)) m)
      f.relPath = some (renderRead f) := by
  induction fs generalizing m with
  | nil => simp at hf
  | cons g rest ih =>
    simp only [List.map_cons, List.nodup_cons] at hnd
    rcases List.mem_cons.mp hf with rfl | hmem
    · rw [List.foldl_cons, dictLookup_foldl_files_not_mem rest _ _ hnd.1,
        dictLookup_dictInsert_same]
    · exact ih _ hmem hnd.2

/-- The successful read result is the fold of the matched files. -/
theorem read_system_files_ok (fs : FilesystemModel)
    (file_patterns : List (String × List String)) (sid : String)
    (h : sid ∈ fs.systemDirs) :
    read_system_files fs file_patterns sid
      = .ok ((allMatchedFiles fs file_patterns sid).foldl
          (fun m f => dictInsert m f.relPath (renderRead f)) []) := by
  unfold read_system_files allMatchedFiles
  rw [if_pos h, foldl_flatMap]
  refine congrArg Except.ok ?_
  apply List.foldl_ext
  intro acc pp _
  exact (foldl_flatMap pp.2 (fun pat => fs.matched sid pat) _ acc).symm

/- ===== Claim C5: adapter read isolation ===== -/

/-- C5: `read_system_files` fails exactly when the system directory is
missing; when it exists the call returns (never raises), every matched
file appears under its relative path (given distinct relative paths), and
a file whose read raised carries a value starting with `Error`. -/
theorem c5_read_system_files :
    ∀ (fs : FilesystemModel) (file_patterns : List (String × List String))
      (sid : String),
      ((∃ e, read_system_files fs file_patterns sid = .error e) ↔
        sid ∉ fs.systemDirs) ∧
      (∀ files, read_system_files fs file_patterns sid = .ok files →
        ((allMatchedFiles fs file_patterns sid).map FileEntry.relPath).Nodup →
        ∀ f ∈ allMatchedFiles fs file_patterns sid,
          dictLookup files f.relPath = some (renderRead f) ∧
          ∀ e, f.readResult = .error e →
            strStartsWith (renderRead f) "Error" = true) := by
  intro fs file_patterns sid
  constructor
  · constructor
    · rintro ⟨e, he⟩ hmem
      rw [read_system_files_ok fs file_patterns sid hmem] at he
      exact Except.noConfusion he
    · intro hmem
      refine ⟨"System not found: " ++ sid, ?_⟩
      unfold read_system_files
      rw [if_neg hmem]
  · intro files hok hnd f hf
    have hmem : sid ∈ fs.systemDirs := by
      by_contra hmem
      unfold read_system_files at hok
      rw [if_neg hmem] at hok
      exact Except.noConfusion hok
    rw [read_system_files_ok fs file_patterns sid hmem] at hok
    injection hok with hok
    constructor
    · rw [← hok]
      exact dictLookup_foldl_files_mem _ _ f hf hnd
    · intro e he
      unfold renderRead
      rw [he]
      show ("Error".data).isPrefixOf ("Error: " ++ e).data = true
      rw [show ("Error: " ++ e).data = "Error".data ++ (": ".data ++ e.data) from rfl]
      exact isPrefixOf_append_self _ _

/-- C5 witness: the fixture with three matched files, one of which fails
to read, returns all three entries and marks the failing one. -/
theorem c5_read_system_files_witness :
    dictLookup [("a.log", "alpha"), ("b.log", "Error: Permission denied"),
        ("c.log", "gamma")] "b.log"
      = some (renderRead ⟨"b.log", .error "Permission denied"⟩) ∧
    strStartsWith (renderRead ⟨"b.log", .error "Permission denied"⟩) "Error" = true := by
  have h := (c5_read_system_files c5fs c5patterns "sys1").2
    [("a.log", "alpha"), ("b.log", "Error: Permission denied"), ("c.log", "gamma")]
    (by rfl) (by decide) ⟨"b.log", .error "Permission denied"⟩ (by decide)
  exact ⟨h.1, h.2 "Permission denied" rfl⟩

/- ===== Lemmas about process_files ===== -/

/-- Membership after a dictionary update: the new pair, or an original
entry. -/
theorem mem_dictInsert {α : Type} (m : List (String × α)) (k : String)
    (v : α) (x : String × α) (h : x ∈ dictInsert m k v) :
    x = (k, v) ∨ x ∈ m := by
  unfold dictInsert at h
  split at h
  · rw [List.mem_map] at h
    obtain ⟨kv, hkv, hx⟩ := h
    by_cases hk : kv.1 = k
    · rw [if_pos hk] at hx; exact Or.inl hx.symm
    · rw [if_neg hk] at hx; exact Or.inr (hx ▸ hkv)
  · rw [List.mem_append] at h
    rcases h with h | h
    · exact Or.inr h
    · exact Or.inl (List.mem_singleton.mp h)

/-- Every entry accumulated by the processing fold either was already in
the accumulator or stems from a retained (non-empty, non-error) input. -/
theorem process_files_mem_aux (cfg : TextProcConfig) :
    ∀ (raw : List (String × String)) (acc : List (String × ProcessedFile))
      (x : String × ProcessedFile),
      x ∈ raw.foldl
        (fun acc pc =>
          if pc.2 = "" || strStartsWith pc.2 "Error" then acc
          else dictInsert acc pc.1 (processOneFile cfg pc.1 pc.2)) acc →
      x ∈ acc ∨ ∃ c, (x.1, c) ∈ raw ∧ c ≠ "" ∧ strStartsWith c "Error" = false := by
  intro raw
  induction raw with
  | nil => intro acc x h; exact Or.inl h
  | cons pc rest ih =>
    intro acc x h
    rw [List.foldl_cons] at h
    rcases ih _ x h with hin | ⟨c, hc, hc1, hc2⟩
    · by_cases hbad : (pc.2 = "" || strStartsWith pc.2 "Error") = true
      · rw [if_pos hbad] at hin
        exact Or.inl hin
      · rw [if_neg hbad] at hin
        have hb : (decide (pc.2 = "") || strStartsWith pc.2 "Error") = false :=
          Bool.eq_false_iff.mpr hbad
        rw [Bool.or_eq_false_iff] at hb
        rcases mem_dictInsert _ _ _ _ hin with hx | hx
        · refine Or.inr ⟨pc.2, ?_, of_decide_eq_false hb.1, hb.2⟩
          rw [hx]
          exact List.mem_cons_self pc rest
        · exact Or.inl hx
    · exact Or.inr ⟨c, List.mem_cons_of_mem pc hc, hc1, hc2⟩

/-- Keys outside the remaining input are untouched by the processing
fold. -/
theorem process_files_lookup_aux (cfg : TextProcConfig) :
    ∀ (raw : List (String × String)) (acc : List (String × ProcessedFile))
      (p : String), p ∉ raw.map Prod.fst →
      dictLookup
        (raw.foldl
          (fun acc pc =>
            if pc.2 = "" || strStartsWith pc.2 "Error" then acc
            else dictInsert acc pc.1 (processOneFile cfg pc.1 pc.2)) acc) p
        = dictLookup acc p := by
  intro raw
  induction raw with
  | nil => intro acc p _; rfl
  | cons pc rest ih =>
    intro acc p hp
    simp only [List.map_cons, List.mem_cons] at hp
    push_neg at hp
    rw [List.foldl_cons, ih _ p hp.2]
    by_cases hbad : (pc.2 = "" || strStartsWith pc.2 "Error") = true
    · rw [if_pos hbad]
    · rw [if_neg hbad, dictLookup_dictInsert_other _ _ _ _ hp.1]

/- ===== Claim C9: process_files filtering ===== -/

/-- C9: `process_files` retains only entries whose content is non-empty
and does not start with `Error`: every output entry stems from such an
input, and a path whose (unique) input content is empty or
`Error`-prefixed — even genuinely read content that merely happens to
start with `Error` — has no output entry. -/
theorem c9_process_files_filtering :
    ∀ (cfg : TextProcConfig) (raw : List (String × String)),
      (∀ p pf, (p, pf) ∈ process_files cfg raw →
        ∃ c, (p, c) ∈ raw ∧ c ≠ "" ∧ strStartsWith c "Error" = false) ∧
      (∀ p c, (p, c) ∈ raw → (c = "" ∨ strStartsWith c "Error" = true) →
        (raw.map Prod.fst).Nodup →
        dictLookup (process_files cfg raw) p = none) := by
  intro cfg raw
  constructor
  · intro p pf hmem
    have h := process_files_mem_aux cfg raw [] (p, pf) hmem
    simpa using h
  · intro p c hmem hbad hnd
    obtain ⟨s, t, rfl⟩ := List.append_of_mem hmem
    rw [List.map_append, List.map_cons, List.nodup_append] at hnd
    obtain ⟨hnds, hndc, hdisj⟩ := hnd
    have hpt : p ∉ t.map Prod.fst := (List.nodup_cons.mp hndc).1
    have hps : p ∉ s.map Prod.fst := fun hp =>
      hdisj hp (List.mem_cons_self _ _)
    show dictLookup ((s ++ (p, c) :: t).foldl
      (fun acc pc =>
        if pc.2 = "" || strStartsWith pc.2 "Error" then acc
        else dictInsert acc pc.1 (processOneFile cfg pc.1 pc.2)) []) p = none
    rw [List.foldl_append, List.foldl_cons]
    show dictLookup (t.foldl _
      (if c = "" || strStartsWith c "Error" then _ else _)) p = none
    have hcond : (decide (c = "") || strStartsWith c "Error") = true := by
      rcases hbad with hb | hb
      · rw [hb]; rfl
      · rw [hb]; simp
    rw [if_pos hcond, process_files_lookup_aux cfg t _ p hpt,
      process_files_lookup_aux cfg s [] p hps]
    rfl

/-- C9 witness: a file whose genuinely read content starts with `Error`
is dropped, and a retained config file stems from clean content. -/
theorem c9_process_files_filtering_witness :
    dictLookup (process_files c9cfg [("notes.txt", "Error while parsing foo")])
        "notes.txt" = none ∧
    ∃ c, ("a.conf", c) ∈ [("a.conf", "x=1")] ∧ c ≠ "" ∧
      strStartsWith c "Error" = false := by
  constructor
  · exact (c9_process_files_filtering c9cfg [("notes.txt", "Error while parsing foo")]).2
      "notes.txt" "Error while parsing foo" (by decide) (Or.inr (by decide)) (by decide)
  · exact (c9_process_files_filtering c9cfg [("a.conf", "x=1")]).1
      "a.conf" (processOneFile c9cfg "a.conf" "x=1")
      (by rw [show process_files c9cfg [("a.conf", "x=1")]
            = [("a.conf", processOneFile c9cfg "a.conf" "x=1")] from rfl]
          exact List.mem_singleton_self _)

/- ===== Claim C1: orchestrator failure modes ===== -/

/-- C1 counterexample: with no graph builder configured the orchestrator
raises, but the raised message is a fixed string that does not name the
system. -/
theorem c1_load_system_data_counterexample :
    load_system_data ⟨fun _ => .ok [], none, none⟩ "web01"
        = .error "Knowledge graph builder required. Check LLM configuration and dependencies." ∧
      strHasSub "web01"
        "Knowledge graph builder required. Check LLM configuration and dependencies." = false :=
  ⟨rfl, by decide⟩

/-- C1 (amended): `load_system_data` raises a pipeline error naming the
system when knowledge-graph creation returns false; raises a pipeline
error with a fixed message (not naming the system) when no graph builder
is configured; and returns a pair of empty lists when the adapter reports
not-found or any other unexpected exception occurs. -/
theorem c1_load_system_data_paths :
    ∀ (env : PipelineEnv) (sid : String),
      (∀ raw create, env.readFiles sid = .ok raw →
        env.graphBuilder = some create →
        create sid (toProcEntries env.textProc raw) = .returns false →
        ∃ msg, load_system_data env sid = .error msg ∧
          strHasSub sid msg = true) ∧
      (∀ raw, env.readFiles sid = .ok raw → env.graphBuilder = none →
        load_system_data env sid
          = .error "Knowledge graph builder required. Check LLM configuration and dependencies.") ∧
      (∀ msg, env.readFiles sid = .notFound msg →
        load_system_data env sid = .ok ([], [])) ∧
      (∀ msg, env.readFiles sid = .raised msg →
        load_system_data env sid = .ok ([], [])) := by
  intro env sid
  refine ⟨?_, ?_, ?_, ?_⟩
  · intro raw create hread hgb hfalse
    refine ⟨"Knowledge graph creation failed for " ++ sid
      ++ ". Check LLM connection, APOC plugin, and Neo4j setup.", ?_, ?_⟩
    · simp only [load_system_data, hread, hgb, hfalse]
    · show hasSub sid.data ("Knowledge graph creation failed for " ++ sid
        ++ ". Check LLM connection, APOC plugin, and Neo4j setup.").data = true
      rw [show ("Knowledge graph creation failed for " ++ sid
          ++ ". Check LLM connection, APOC plugin, and Neo4j setup.").data
        = ("Knowledge graph creation failed for ".data ++ sid.data)
          ++ ". Check LLM connection, APOC plugin, and Neo4j setup.".data from rfl,
        List.append_assoc]
      exact hasSub_of_embedded _ _ _
  · intro raw hread hgb
    simp only [load_system_data, hread, hgb]
  · intro msg hread
    simp only [load_system_data, hread]
  · intro msg hread
    simp only [load_system_data, hread]

/-- C1 witness: the amended statement applied to concrete environments
covering all four failure paths. -/
theorem c1_load_system_data_paths_witness :
    (∃ msg, load_system_data c1env "db-prod-07" = .error msg ∧
      strHasSub "db-prod-07" msg = true) ∧
    load_system_data c1envNoBuilder "web01"
      = .error "Knowledge graph builder required. Check LLM configuration and dependencies." ∧
    load_system_data c1envNotFound "s2" = .ok ([], []) ∧
    load_system_data c1envRaised "s3" = .ok ([], []) :=
  ⟨(c1_load_system_data_paths c1env "db-prod-07").1 []
      (fun _ _ => .returns false) rfl rfl rfl,
   (c1_load_system_data_paths c1envNoBuilder "web01").2.1 [] rfl rfl,
   (c1_load_system_data_paths c1envNotFound "s2").2.2.1
      ("System not found: " ++ "s2") rfl,
   (c1_load_system_data_paths c1envRaised "s3").2.2.2 "disk offline" rfl⟩

/- ===== Lemmas about the analysis context ===== -/

/-- Joining lines keeps the first line as a prefix. -/
theorem joinWithNewline_cons_data (s : String) (l : List String) :
    ∃ t, (joinWithNewline (s :: l)).data = s.data ++ t := by
  cases l with
  | nil => exact ⟨[], by simp [joinWithNewline]⟩
  | cons x xs =>
    refine ⟨'\n' :: (joinWithNewline (x :: xs)).data, ?_⟩
    show ((s ++ "\n") ++ joinWithNewline (x :: xs)).data
      = s.data ++ '\n' :: (joinWithNewline (x :: xs)).data
    rw [show ((s ++ "\n") ++ joinWithNewline (x :: xs)).data
      = (s.data ++ ['\n']) ++ (joinWithNewline (x :: xs)).data from rfl,
      List.append_assoc]
    rfl

/-- A list starting with a non-whitespace character does not strip to
empty. -/
theorem pyStrip_cons_ne_nil (c : Char) (l : List Char)
    (hc : isPySpace c = false) : pyStrip (c :: l) ≠ [] := by
  intro h
  unfold pyStrip at h
  rw [List.reverse_eq_nil_iff, List.dropWhile_eq_nil_iff] at h
  have hdrop : (c :: l).dropWhile isPySpace = c :: l := by
    simp [List.dropWhile_cons, hc]
  rw [hdrop] at h
  have hcmem : c ∈ (c :: l).reverse := by simp
  rw [h c hcmem] at hc
  exact Bool.noConfusion hc

/-- The assembled analysis context never strips to blank: it always opens
with the system-analysis header. -/
theorem build_analysis_context_nonblank (sid : String)
    (processed : List (String × ProcEntry)) :
    pyStrip (build_analysis_context sid processed).data ≠ [] := by
  obtain ⟨t, ht⟩ := joinWithNewline_cons_data ("SYSTEM ANALYSIS: " ++ sid)
    ((processed.foldl
      (fun parts pv =>
        if pyStrip (cleanedContentOf pv.2).data ≠ [] then
          parts ++ ["\n--- FILE: " ++ pv.1 ++ " ---", cleanedContentOf pv.2]
        else parts) []) ++ [analysisInstructions sid])
  show pyStrip (joinWithNewline (("SYSTEM ANALYSIS: " ++ sid) ::
    ((processed.foldl
      (fun parts pv =>
        if pyStrip (cleanedContentOf pv.2).data ≠ [] then
          parts ++ ["\n--- FILE: " ++ pv.1 ++ " ---", cleanedContentOf pv.2]
        else parts) []) ++ [analysisInstructions sid]))).data ≠ []
  rw [ht]
  rw [show ("SYSTEM ANALYSIS: " ++ sid).data ++ t
    = 'S' :: (("YSTEM ANALYSIS: " ++ sid).data ++ t) from rfl]
  exact pyStrip_cons_ne_nil 'S' _ (by decide)

/- ===== Claim C4: AI graph builder outcomes ===== -/

/-- C4 counterexample: with an empty processed-data map the assembled
context still contains the header and instruction block, so the no-content
guard does not fire; extraction proceeds, and when it yields a document
the call returns true, not false. -/
theorem c4_create_knowledge_graph_counterexample :
    create_knowledge_graph
      ⟨some (fun _ => .docs [⟨["System"], []⟩]), some (fun _ => .ok)⟩
      "sys-a" [] = true := by
  simp only [create_knowledge_graph]
  rw [if_neg (build_analysis_context_nonblank "sys-a" [])]

/-- C4 (amended): `create_knowledge_graph` never raises (it is
Boolean-valued); it returns false when the builder is uninitialized, when
extraction raises, or when extraction yields no documents; but the
blank-context early return is unreachable — the assembled context always
contains the system header and instruction block — so an empty
processed-data map does not by itself force a false return. -/
theorem c4_create_knowledge_graph_outcomes :
    ∀ (st : AIBuilderState) (sid : String)
      (processed : List (String × ProcEntry)),
      pyStrip (build_analysis_context sid processed).data ≠ [] ∧
      (st.graph_transformer = none ∨ st.neo4j_graph = none →
        create_knowledge_graph st sid processed = false) ∧
      (∀ convert addDocs msg, st.graph_transformer = some convert →
        st.neo4j_graph = some addDocs →
        convert (build_analysis_context sid processed) = .raised msg →
        create_knowledge_graph st sid processed = false) ∧
      (∀ convert addDocs, st.graph_transformer = some convert →
        st.neo4j_graph = some addDocs →
        convert (build_analysis_context sid processed) = .docs [] →
        create_knowledge_graph st sid processed = false) := by
  intro st sid processed
  obtain ⟨gt, ng⟩ := st
  refine ⟨build_analysis_context_nonblank sid processed, ?_, ?_, ?_⟩
  · intro h
    rcases h with h | h
    · have h2 : gt = none := h
      subst h2
      cases ng <;> rfl
    · have h2 : ng = none := h
      subst h2
      cases gt <;> rfl
  · intro convert addDocs msg hgt hng hraised
    have h1 : gt = some convert := hgt
    have h2 : ng = some addDocs := hng
    subst h1 h2
    simp only [create_knowledge_graph]
    rw [if_neg (build_analysis_context_nonblank sid processed), hraised]
  · intro convert addDocs hgt hng hdocs
    have h1 : gt = some convert := hgt
    have h2 : ng = some addDocs := hng
    subst h1 h2
    simp only [create_knowledge_graph]
    rw [if_neg (build_analysis_context_nonblank sid processed), hdocs]

/-- C4 witness: the amended statement applied to concrete builder states. -/
theorem c4_create_knowledge_graph_outcomes_witness :
    create_knowledge_graph ⟨none, some (fun _ => .ok)⟩ "sys-b" [] = false ∧
    create_knowledge_graph
      ⟨some (fun _ => .raised "timeout"), some (fun _ => .ok)⟩ "sys-b" [] = false ∧
    create_knowledge_graph
      ⟨some (fun _ => .docs []), some (fun _ => .ok)⟩ "sys-b" [] = false :=
  ⟨(c4_create_knowledge_graph_outcomes ⟨none, some (fun _ => .ok)⟩ "sys-b" []).2.1
      (Or.inl rfl),
   (c4_create_knowledge_graph_outcomes
      ⟨some (fun _ => .raised "timeout"), some (fun _ => .ok)⟩ "sys-b" []).2.2.1
      (fun _ => .raised "timeout") (fun _ => .ok) "timeout" rfl rfl rfl,
   (c4_create_knowledge_graph_outcomes
      ⟨some (fun _ => .docs []), some (fun _ => .ok)⟩ "sys-b" []).2.2.2
      (fun _ => .docs []) (fun _ => .ok) rfl rfl rfl⟩

/- ===== Lemmas about key insertion ===== -/

/-- An inserted key is present. -/
theorem mem_insertKey_self {α : Type} [DecidableEq α] (ks : List α) (k : α) :
    k ∈ insertKey ks k := by
  unfold insertKey
  split
  · assumption
  · simp

/-- Insertion preserves the existing keys. -/
theorem mem_insertKey_of_mem {α : Type} [DecidableEq α] (ks : List α)
    (k x : α) (h : x ∈ ks) : x ∈ insertKey ks k := by
  unfold insertKey
  split
  · exact h
  · exact List.mem_append_left _ h

/-- Inserting a present key changes nothing. -/
theorem insertKey_eq_self {α : Type} [DecidableEq α] (ks : List α) (k : α)
    (h : k ∈ ks) : insertKey ks k = ks := if_pos h

/-- Accumulated insertion preserves the existing keys. -/
theorem mem_foldIns_of_mem {α : Type} [DecidableEq α] :
    ∀ (l ks : List α) (x : α), x ∈ ks → x ∈ foldIns ks l := by
  intro l
  induction l with
  | nil => intro ks x h; exact h
  | cons a t ih =>
    intro ks x h
    exact ih _ x (mem_insertKey_of_mem ks a x h)

/-- Every inserted key is present after accumulated insertion. -/
theorem mem_foldIns_of_mem_list {α : Type} [DecidableEq α] :
    ∀ (l ks : List α) (x : α), x ∈ l → x ∈ foldIns ks l := by
  intro l
  induction l with
  | nil => intro ks x h; simp at h
  | cons a t ih =>
    intro ks x h
    rcases List.mem_cons.mp h with rfl | h
    · exact mem_foldIns_of_mem t _ x (mem_insertKey_self ks x)
    · exact ih _ x h

/-- Accumulated insertion of already-present keys changes nothing. -/
theorem foldIns_eq_self {α : Type} [DecidableEq α] :
    ∀ (l ks : List α), (∀ x ∈ l, x ∈ ks) → foldIns ks l = ks := by
  intro l
  induction l with
  | nil => intro ks _; rfl
  | cons a t ih =>
    intro ks h
    show foldIns (insertKey ks a) t = ks
    rw [insertKey_eq_self ks a (h a (List.mem_cons_self a t))]
    exact ih ks (fun x hx => h x (List.mem_cons_of_mem a hx))

/-- Accumulated insertion is idempotent. -/
theorem foldIns_idem {α : Type} [DecidableEq α] (ks l : List α) :
    foldIns (foldIns ks l) l = foldIns ks l :=
  foldIns_eq_self l (foldIns ks l) (fun x hx => mem_foldIns_of_mem_list l ks x hx)

/-- Accumulated insertion splits over appending occurrence lists. -/
theorem foldIns_append {α : Type} [DecidableEq α] (ks a b : List α) :
    foldIns ks (a ++ b) = foldIns (foldIns ks a) b :=
  List.foldl_append insertKey ks a b

/-- The key-membership test of a Cypher `MERGE` pattern in terms of the
key list. -/
theorem any_key_eq_mem {α : Type} (m : List (String × α)) (x : String) :
    m.any (fun kv => kv.1 = x) = decide (x ∈ m.map Prod.fst) := by
  induction m with
  | nil => rfl
  | cons kv rest ih =>
    by_cases hk : kv.1 = x
    · simp [List.any_cons, hk]
    · simp [List.any_cons, hk, ih, Ne.symm hk]

/-- A dictionary update touches the key list like a single insertion. -/
theorem map_fst_dictInsert {α : Type} (m : List (String × α)) (k : String)
    (v : α) : (dictInsert m k v).map Prod.fst = insertKey (m.map Prod.fst) k := by
  unfold dictInsert insertKey
  rw [any_key_eq_mem]
  by_cases h : k ∈ m.map Prod.fst
  · rw [if_pos (decide_eq_true h), if_pos h, List.map_map]
    refine List.map_congr_left ?_
    intro kv _
    by_cases hk : kv.1 = k <;> simp [hk]
  · rw [if_neg (by simp [h]), if_neg h]
    simp

/-- A bare merge touches the key list like a single insertion. -/
theorem map_fst_mergeBareNode {α : Type} (m : List (String × α)) (k : String)
    (init : α) :
    (mergeBareNode m k init).map Prod.fst = insertKey (m.map Prod.fst) k := by
  unfold mergeBareNode insertKey
  rw [any_key_eq_mem]
  by_cases h : k ∈ m.map Prod.fst
  · rw [if_pos (decide_eq_true h), if_pos h]
  · rw [if_neg (by simp [h]), if_neg h]
    simp

/- ===== Field characterizations of the graph-loading phases ===== -/

/-- The per-service loop touches each field like a key-insertion trace. -/
theorem loadService_fold_fields (sid : String) :
    ∀ (services : List String) (st : GraphState),
      (services.foldl (loadServiceStep sid) st).systems.map Prod.fst
        = foldIns (st.systems.map Prod.fst) (services.map (fun _ => sid)) ∧
      (services.foldl (loadServiceStep sid) st).services
        = foldIns st.services services ∧
      (services.foldl (loadServiceStep sid) st).runs
        = foldIns st.runs (services.map (fun svc => (sid, svc))) ∧
      (services.foldl (loadServiceStep sid) st).events = st.events ∧
      (services.foldl (loadServiceStep sid) st).hasEvent = st.hasEvent := by
  intro services
  induction services with
  | nil => intro st; exact ⟨rfl, rfl, rfl, rfl, rfl⟩
  | cons svc rest ih =>
    intro st
    obtain ⟨i1, i2, i3, i4, i5⟩ := ih (loadServiceStep sid st svc)
    refine ⟨?_, ?_, ?_, ?_, ?_⟩
    · rw [List.foldl_cons, i1]
      show foldIns ((mergeBareNode st.systems sid bareSystemProps).map Prod.fst)
        (rest.map (fun _ => sid)) = _
      rw [map_fst_mergeBareNode]
      rfl
    · rw [List.foldl_cons, i2]
      rfl
    · rw [List.foldl_cons, i3]
      rfl
    · rw [List.foldl_cons, i4]
      rfl
    · rw [List.foldl_cons, i5]
      rfl

/-- `_load_systems` touches each field like its key-insertion trace and
leaves events and event relationships alone. -/
theorem load_systems_fields (t : Nat) :
    ∀ (systems : List SystemEntity) (st : GraphState),
      (neo4j_load_systems t st systems).systems.map Prod.fst
        = foldIns (st.systems.map Prod.fst) (sysKeyOccurrences systems) ∧
      (neo4j_load_systems t st systems).services
        = foldIns st.services (serviceOccurrences systems) ∧
      (neo4j_load_systems t st systems).runs
        = foldIns st.runs (runOccurrences systems) ∧
      (neo4j_load_systems t st systems).events = st.events ∧
      (neo4j_load_systems t st systems).hasEvent = st.hasEvent := by
  intro systems
  induction systems with
  | nil => intro st; exact ⟨rfl, rfl, rfl, rfl, rfl⟩
  | cons sys rest ih =>
    intro st
    obtain ⟨k1, k2, k3, k4, k5⟩ := ih (loadSystemStep t st sys)
    have hsys : { st with
        systems := dictInsert st.systems sys.system_id
          ⟨sys.hostname, sys.rhel_version, sys.environment, sys.package_count, t⟩ }
        = GraphState.mk (dictInsert st.systems sys.system_id
            ⟨sys.hostname, sys.rhel_version, sys.environment, sys.package_count, t⟩)
          st.services st.events st.runs st.hasEvent := rfl
    obtain ⟨j1, j2, j3, j4, j5⟩ := loadService_fold_fields sys.system_id
      sys.services
      { st with
        systems := dictInsert st.systems sys.system_id
          ⟨sys.hostname, sys.rhel_version, sys.environment, sys.package_count, t⟩ }
    have j1' : (loadSystemStep t st sys).systems.map Prod.fst
        = foldIns ((dictInsert st.systems sys.system_id
            ⟨sys.hostname, sys.rhel_version, sys.environment, sys.package_count, t⟩).map
            Prod.fst)
          (sys.services.map (fun _ => sys.system_id)) := j1
    have j2' : (loadSystemStep t st sys).services
        = foldIns st.services sys.services := j2
    have j3' : (loadSystemStep t st sys).runs
        = foldIns st.runs (sys.services.map (fun svc => (sys.system_id, svc))) := j3
    have j4' : (loadSystemStep t st sys).events = st.events := j4
    have j5' : (loadSystemStep t st sys).hasEvent = st.hasEvent := j5
    refine ⟨?_, ?_, ?_, ?_, ?_⟩
    · show (neo4j_load_systems t (loadSystemStep t st sys) rest).systems.map Prod.fst = _
      rw [k1, j1', map_fst_dictInsert,
        show sysKeyOccurrences (sys :: rest)
          = (sys.system_id :: sys.services.map (fun _ => sys.system_id))
            ++ sysKeyOccurrences rest from by simp [sysKeyOccurrences],
        foldIns_append]
      rfl
    · show (neo4j_load_systems t (loadSystemStep t st sys) rest).services = _
      rw [k2, j2',
        show serviceOccurrences (sys :: rest)
          = sys.services ++ serviceOccurrences rest from by simp [serviceOccurrences],
        foldIns_append]
    · show (neo4j_load_systems t (loadSystemStep t st sys) rest).runs = _
      rw [k3, j3',
        show runOccurrences (sys :: rest)
          = sys.services.map (fun svc => (sys.system_id, svc))
            ++ runOccurrences rest from by simp [runOccurrences],
        foldIns_append]
    · show (neo4j_load_systems t (loadSystemStep t st sys) rest).events = _
      rw [k4, j4']
    · show (neo4j_load_systems t (loadSystemStep t st sys) rest).hasEvent = _
      rw [k5, j5']

/-- `_load_events` touches only the event nodes, like its key-insertion
trace. -/
theorem load_events_fields (t : Nat) :
    ∀ (events : List EventEntity) (st : GraphState),
      (neo4j_load_events t st events).events.map Prod.fst
        = foldIns (st.events.map Prod.fst) (eventKeyOccurrences events) ∧
      (neo4j_load_events t st events).systems = st.systems ∧
      (neo4j_load_events t st events).services = st.services ∧
      (neo4j_load_events t st events).runs = st.runs ∧
      (neo4j_load_events t st events).hasEvent = st.hasEvent := by
  intro events
  induction events with
  | nil => intro st; exact ⟨rfl, rfl, rfl, rfl, rfl⟩
  | cons ev rest ih =>
    intro st
    obtain ⟨k1, k2, k3, k4, k5⟩ := ih (loadEventStep t st ev)
    refine ⟨?_, ?_, ?_, ?_, ?_⟩
    · show (neo4j_load_events t (loadEventStep t st ev) rest).events.map Prod.fst = _
      rw [k1, show (loadEventStep t st ev).events
        = dictInsert st.events ev.event_id
            ⟨ev.system_id, ev.event_type, ev.timestamp, ev.severity, ev.status,
             ev.title, ev.description, ev.source, t⟩ from rfl, map_fst_dictInsert]
      rfl
    · exact k2
    · exact k3
    · exact k4
    · exact k5

/-- `_create_relationships` merges exactly the `HAS_EVENT` pairs whose
endpoints exist, and leaves every node set alone. -/
theorem create_rels_fields :
    ∀ (events : List EventEntity) (st : GraphState),
      (neo4j_create_relationships st events).hasEvent
        = foldIns st.hasEvent
            (hasEventPairs (st.systems.map Prod.fst) (st.events.map Prod.fst) events) ∧
      (neo4j_create_relationships st events).systems = st.systems ∧
      (neo4j_create_relationships st events).services = st.services ∧
      (neo4j_create_relationships st events).events = st.events ∧
      (neo4j_create_relationships st events).runs = st.runs := by
  intro events
  induction events with
  | nil => intro st; exact ⟨rfl, rfl, rfl, rfl, rfl⟩
  | cons ev rest ih =>
    intro st
    obtain ⟨k1, k2, k3, k4, k5⟩ := ih (relStep st ev)
    have hpred : (fun e : EventEntity =>
        decide (e.system_id ∈ st.systems.map Prod.fst)
          && decide (e.event_id ∈ st.events.map Prod.fst)) ev
        = (st.systems.any (fun kv => kv.1 = ev.system_id)
            && st.events.any (fun kv => kv.1 = ev.event_id)) := by
      rw [any_key_eq_mem, any_key_eq_mem]
    by_cases hp : (st.systems.any (fun kv => kv.1 = ev.system_id)
        && st.events.any (fun kv => kv.1 = ev.event_id)) = true
    · have hstep : relStep st ev
          = { st with hasEvent := insertKey st.hasEvent (ev.system_id, ev.event_id) } := by
        unfold relStep
        rw [if_pos hp]
      refine ⟨?_, ?_, ?_, ?_, ?_⟩
      · show (neo4j_create_relationships (relStep st ev) rest).hasEvent = _
        rw [k1, hstep]
        show foldIns (insertKey st.hasEvent (ev.system_id, ev.event_id))
          (hasEventPairs (st.systems.map Prod.fst) (st.events.map Prod.fst) rest) = _
        rw [show hasEventPairs (st.systems.map Prod.fst) (st.events.map Prod.fst)
            (ev :: rest)
          = (ev.system_id, ev.event_id)
            :: hasEventPairs (st.systems.map Prod.fst) (st.events.map Prod.fst) rest
          from by simp [hasEventPairs, List.filter_cons, hpred.trans hp]]
        rfl
      · show (neo4j_create_relationships (relStep st ev) rest).systems = _
        rw [k2, hstep]
      · show (neo4j_create_relationships (relStep st ev) rest).services = _
        rw [k3, hstep]
      · show (neo4j_create_relationships (relStep st ev) rest).events = _
        rw [k4, hstep]
      · show (neo4j_create_relationships (relStep st ev) rest).runs = _
        rw [k5, hstep]
    · have hstep : relStep st ev = st := by
        unfold relStep
        rw [if_neg hp]
      have hfilter : hasEventPairs (st.systems.map Prod.fst)
          (st.events.map Prod.fst) (ev :: rest)
          = hasEventPairs (st.systems.map Prod.fst) (st.events.map Prod.fst) rest := by
        simp only [hasEventPairs, List.filter_cons, hpred,
          Bool.eq_false_iff.mpr hp]
        rfl
      refine ⟨?_, ?_, ?_, ?_, ?_⟩
      · show (neo4j_create_relationships (relStep st ev) rest).hasEvent = _
        rw [k1, hstep, hfilter]
      · show (neo4j_create_relationships (relStep st ev) rest).systems = _
        rw [k2, hstep]
      · show (neo4j_create_relationships (relStep st ev) rest).services = _
        rw [k3, hstep]
      · show (neo4j_create_relationships (relStep st ev) rest).events = _
        rw [k4, hstep]
      · show (neo4j_create_relationships (relStep st ev) rest).runs = _
        rw [k5, hstep]

/-- Full key-view of one `load_systems_and_events` call: every field is
the key-insertion trace over the (possibly cleared) starting state, and
none of it depends on the write timestamp. -/
theorem load_sae_fields (clear : Bool) (t : Nat) (st : GraphState)
    (systems : List SystemEntity) (events : List EventEntity) :
    (load_systems_and_events clear t st systems events).systems.map Prod.fst
      = foldIns ((if clear then emptyGraphState else st).systems.map Prod.fst)
          (sysKeyOccurrences systems) ∧
    (load_systems_and_events clear t st systems events).services
      = foldIns (if clear then emptyGraphState else st).services
          (serviceOccurrences systems) ∧
    (load_systems_and_events clear t st systems events).events.map Prod.fst
      = foldIns ((if clear then emptyGraphState else st).events.map Prod.fst)
          (eventKeyOccurrences events) ∧
    (load_systems_and_events clear t st systems events).runs
      = foldIns (if clear then emptyGraphState else st).runs
          (runOccurrences systems) ∧
    (load_systems_and_events clear t st systems events).hasEvent
      = foldIns (if clear then emptyGraphState else st).hasEvent
          (hasEventPairs
            (foldIns ((if clear then emptyGraphState else st).systems.map Prod.fst)
              (sysKeyOccurrences systems))
            (foldIns ((if clear then emptyGraphState else st).events.map Prod.fst)
              (eventKeyOccurrences events))
            events) := by
  set st0 := if clear then emptyGraphState else st
  obtain ⟨a1, a2, a3, a4, a5⟩ := load_systems_fields t systems st0
  obtain ⟨b1, b2, b3, b4, b5⟩ := load_events_fields t events
    (neo4j_load_systems t st0 systems)
  obtain ⟨c1, c2, c3, c4, c5⟩ := create_rels_fields events
    (neo4j_load_events t (neo4j_load_systems t st0 systems) events)
  have hdef : load_systems_and_events clear t st systems events
      = neo4j_create_relationships
          (neo4j_load_events t (neo4j_load_systems t st0 systems) events)
          events := rfl
  refine ⟨?_, ?_, ?_, ?_, ?_⟩
  · rw [hdef, c2, b2, a1]
  · rw [hdef, c3, b3, a2]
  · rw [hdef, c4, b1, a4]
  · rw [hdef, c5, b4, a3]
  · rw [hdef, c1, b5, a5, b2, a1, b1, a4]

/- ===== Claim C3: idempotent reload ===== -/

/-- C3: reloading the same systems and events with identical content does
not change node or relationship counts in the persisted graph: every
write is a merge keyed on `system_id` (systems), service name, or
`event_id` (events), so the second load inserts no new keys. -/
theorem c3_merge_idempotent_reload :
    ∀ (clearOnStartup : Bool) (t1 t2 : Nat) (st : GraphState)
      (systems : List SystemEntity) (events : List EventEntity),
      nodeCount (load_systems_and_events clearOnStartup t2
          (load_systems_and_events clearOnStartup t1 st systems events)
          systems events)
        = nodeCount (load_systems_and_events clearOnStartup t1 st systems events) ∧
      relCount (load_systems_and_events clearOnStartup t2
          (load_systems_and_events clearOnStartup t1 st systems events)
          systems events)
        = relCount (load_systems_and_events clearOnStartup t1 st systems events) := by
  intro clear t1 t2 st systems events
  obtain ⟨h1a, h1b, h1c, h1d, h1e⟩ := load_sae_fields clear t1 st systems events
  obtain ⟨h2a, h2b, h2c, h2d, h2e⟩ := load_sae_fields clear t2
    (load_systems_and_events clear t1 st systems events) systems events
  have hkeys :
      (load_systems_and_events clear t2
          (load_systems_and_events clear t1 st systems events) systems
          events).systems.map Prod.fst
        = (load_systems_and_events clear t1 st systems events).systems.map Prod.fst ∧
      (load_systems_and_events clear t2
          (load_systems_and_events clear t1 st systems events) systems
          events).services
        = (load_systems_and_events clear t1 st systems events).services ∧
      (load_systems_and_events clear t2
          (load_systems_and_events clear t1 st systems events) systems
          events).events.map Prod.fst
        = (load_systems_and_events clear t1 st systems events).events.map Prod.fst ∧
      (load_systems_and_events clear t2
          (load_systems_and_events clear t1 st systems events) systems
          events).runs
        = (load_systems_and_events clear t1 st systems events).runs ∧
      (load_systems_and_events clear t2
          (load_systems_and_events clear t1 st systems events) systems
          events).hasEvent
        = (load_systems_and_events clear t1 st systems events).hasEvent := by
    cases clear with
    | true =>
      simp only [if_pos rfl] at h1a h1b h1c h1d h1e h2a h2b h2c h2d h2e
      exact ⟨h2a.trans h1a.symm, h2b.trans h1b.symm, h2c.trans h1c.symm,
        h2d.trans h1d.symm, h2e.trans h1e.symm⟩
    | false =>
      simp only [if_neg (by simp : ¬(false = true))]
        at h1a h1b h1c h1d h1e h2a h2b h2c h2d h2e
      rw [h1a, foldIns_idem] at h2a
      rw [h1b, foldIns_idem] at h2b
      rw [h1c, foldIns_idem] at h2c
      rw [h1d, foldIns_idem] at h2d
      rw [h1a, foldIns_idem, h1c, foldIns_idem, h1e, foldIns_idem] at h2e
      exact ⟨h2a.trans h1a.symm, h2b.trans h1b.symm, h2c.trans h1c.symm,
        h2d.trans h1d.symm, h2e.trans h1e.symm⟩
  obtain ⟨hA, hB, hC, hD, hE⟩ := hkeys
  have lsys := congrArg List.length hA
  rw [List.length_map, List.length_map] at lsys
  have levt := congrArg List.length hC
  rw [List.length_map, List.length_map] at levt
  have lsvc := congrArg List.length hB
  have lruns := congrArg List.length hD
  have lhe := congrArg List.length hE
  constructor
  · unfold nodeCount
    omega
  · unfold relCount
    omega
